import Mathlib

/-!
Shallow embedding of the balance-resolution core of the iota-sdk wallet:
the unlock-condition temporal predicates (`wallet/operations/helpers/time.rs`),
the `TimelockUnlockCondition` (`types/block/output/unlock_condition/timelock.rs`),
the native-token aggregator and the balance resolution engine
(`wallet/account/operations/balance.rs`, `balance_inner` / `finish`).

Machine integers are modelled as `Nat`; `u64`/`U256` subtractions that panic on
underflow in Rust are modelled explicitly where the panic is reachable.
External collaborators (rent cost, network id, ledger time, claimability) are
fields of the resolution context `Ctx`.
-/

namespace IotaSdk

/-- Ledger slot index (a `u32` newtype in the source). -/
abbrev SlotIndex := Nat

/-- Stable identifier of an output (opaque, comparable, hashable). -/
abbrev OutputId := Nat

/-- A ledger address; this core only compares addresses for equality. -/
abbrev Address := Nat

/-- Native token identifier (opaque). -/
abbrev TokenId := Nat

/-- One more than the largest 256-bit unsigned value: native-token amounts are
`U256` in the source and their checked addition fails beyond this bound. -/
def u256Bound : Nat := 2 ^ 256

/-- Errors of the block-types layer (`types::block::Error`), restricted to the
variants reachable from this excerpt. -/
inductive BlockError where
  | timelockUnlockConditionZero
  | nativeTokensOverflow
deriving DecidableEq

/-- Structure `TimelockUnlockCondition`: a slot index until which the output can
not be unlocked (`slot` models the single tuple field). -/
structure TimelockUnlockCondition where
  slot : SlotIndex
deriving DecidableEq

/-- Function `verify_slot_index`: rejects a zero slot index when `VERIFY` holds. -/
def verify_slot_index (VERIFY : Bool) (slot_index : SlotIndex) : Except BlockError Unit :=
  if VERIFY && slot_index == 0 then .error .timelockUnlockConditionZero else .ok ()

/-- Constructor `TimelockUnlockCondition::new`. -/
def TimelockUnlockCondition.new (slot_index : SlotIndex) :
    Except BlockError TimelockUnlockCondition :=
  match verify_slot_index true slot_index with
  | .error e => .error e
  | .ok _ => .ok { slot := slot_index }

/-- Accessor `TimelockUnlockCondition::slot_index`. -/
def TimelockUnlockCondition.slot_index (t : TimelockUnlockCondition) : SlotIndex := t.slot

/-- Predicate `TimelockUnlockCondition::is_timelocked`: whether the timelock is
still relevant at the given slot and minimum committable age. -/
def TimelockUnlockCondition.is_timelocked (t : TimelockUnlockCondition)
    (slot_index min_committable_age : SlotIndex) : Bool :=
  decide (slot_index + min_committable_age < t.slot)

/-- Structure `StorageDepositReturnUnlockCondition`: return address and amount. -/
structure StorageDepositReturnUnlockCondition where
  return_address : Address
  amount : Nat
deriving DecidableEq

/-- Structure `ExpirationUnlockCondition`: return address and expiration
timestamp (the engine compares it against the current local time). -/
structure ExpirationUnlockCondition where
  return_address : Address
  timestamp : Nat
deriving DecidableEq

/-- Tagged variant `UnlockCondition`; an output's unlock-condition set holds
each variant kind at most once. -/
inductive UnlockCondition where
  | address (a : Address)
  | storageDepositReturn (sdr : StorageDepositReturnUnlockCondition)
  | timelock (t : TimelockUnlockCondition)
  | expiration (e : ExpirationUnlockCondition)
  | other (kind : Nat)
deriving DecidableEq

/-- An output's ordered unlock-condition set (`UnlockConditions`). -/
abbrev UnlockConditions := List UnlockCondition

/-- Modelled from the spec: accessor `UnlockConditions::timelock`, the
at-most-one Timelock member of the set (the `UnlockConditions` impl itself is
not part of this excerpt). -/
def UnlockConditions.timelock : UnlockConditions → Option TimelockUnlockCondition
  | [] => none
  | UnlockCondition.timelock t :: _ => some t
  | _ :: rest => UnlockConditions.timelock rest

/-- Modelled from the spec: accessor `UnlockConditions::storage_deposit_return`. -/
def UnlockConditions.storage_deposit_return :
    UnlockConditions → Option StorageDepositReturnUnlockCondition
  | [] => none
  | UnlockCondition.storageDepositReturn sdr :: _ => some sdr
  | _ :: rest => UnlockConditions.storage_deposit_return rest

/-- Modelled from the spec: accessor `UnlockConditions::expiration`. -/
def UnlockConditions.expiration : UnlockConditions → Option ExpirationUnlockCondition
  | [] => none
  | UnlockCondition.expiration e :: _ => some e
  | _ :: rest => UnlockConditions.expiration rest

/-- Modelled from the spec: predicate `UnlockConditions::is_timelocked`, true
iff the set holds a Timelock condition that is still timelocked. -/
def UnlockConditions.is_timelocked (ucs : UnlockConditions)
    (slot_index min_committable_age : SlotIndex) : Bool :=
  match UnlockConditions.timelock ucs with
  | some t => t.is_timelocked slot_index min_committable_age
  | none => false

/-- Output type tags (the `Output` enum variants relevant to the engine; the
catch-all `treasury` covers the `_ => {}` arm, with no unlock conditions). -/
inductive OutputKind where
  | basic
  | aliasOutput
  | foundry
  | nft
  | treasury
deriving DecidableEq

/-- A ledger output: base-coin amount, optional native tokens, optional
unlock-condition set, and the asset id recorded in the balance's asset lists
(modelling `alias_id_non_null` / `id` / `nft_id_non_null`, whose derivation
from the OutputId is outside this excerpt). -/
structure Output where
  kind : OutputKind
  amount : Nat
  native_tokens : Option (List (TokenId × Nat))
  unlock_conditions : Option UnlockConditions
  asset_id : Nat
deriving DecidableEq

/-- Predicate `Output::is_basic`. -/
def Output.is_basic (o : Output) : Bool :=
  match o.kind with
  | .basic => true
  | _ => false

/-- Predicate `can_output_be_unlocked_forever_from_now_on` (wallet helper):
whether an output can be unlocked by the wallet address at the current time and
at any point in the future.  The Expiration-aware branch is commented out in the
source, so the wallet address is not consulted once the timelock check passes. -/
def can_output_be_unlocked_forever_from_now_on (wallet_address : Address) (output : Output)
    (slot_index : SlotIndex) (min_committable_age max_committable_age : Nat) : Bool :=
  match output.unlock_conditions with
  | some unlock_conditions =>
    if UnlockConditions.is_timelocked unlock_conditions slot_index min_committable_age then
      false
    else
      true
  | none => false

/-- Transient accumulator `NativeTokensBuilder`: token id mapped to a running
amount, in insertion order of first encounter. -/
abbrev NativeTokensBuilder := List (TokenId × Nat)

/-- Running amount recorded for a token id (zero when absent). -/
def NativeTokensBuilder.amount (b : NativeTokensBuilder) (t : TokenId) : Nat :=
  match b.lookup t with
  | some a => a
  | none => 0

/-- Record a new running amount for a token id, keeping first-encounter order. -/
def NativeTokensBuilder.set (b : NativeTokensBuilder) (t : TokenId) (v : Nat) :
    NativeTokensBuilder :=
  if b.any (fun p => p.1 == t) then
    b.map (fun p => if p.1 == t then (p.1, v) else p)
  else
    b ++ [(t, v)]

/-- Operation `NativeTokensBuilder::add_native_token`: checked 256-bit addition
into the running amount, failing with an overflow error past the `U256` range. -/
def NativeTokensBuilder.add_native_token (b : NativeTokensBuilder) (nt : TokenId × Nat) :
    Except BlockError NativeTokensBuilder :=
  let newAmount := NativeTokensBuilder.amount b nt.1 + nt.2
  if newAmount < u256Bound then
    .ok (NativeTokensBuilder.set b nt.1 newAmount)
  else
    .error .nativeTokensOverflow

/-- Operation `NativeTokensBuilder::add_native_tokens`: fold the checked
addition over a list of native tokens. -/
def NativeTokensBuilder.add_native_tokens (b : NativeTokensBuilder)
    (nts : List (TokenId × Nat)) : Except BlockError NativeTokensBuilder :=
  nts.foldlM NativeTokensBuilder.add_native_token b

/-- Operation `NativeTokensBuilder::finish_set`: the finalized (token id,
total) pairs, in the builder's order. -/
def NativeTokensBuilder.finish_set (b : NativeTokensBuilder) :
    Except BlockError (List (TokenId × Nat)) :=
  .ok b

/-- Base-coin part of a `Balance`. -/
structure BaseCoinBalance where
  total : Nat
  available : Nat
  voting_power : Nat
deriving DecidableEq

/-- Per-output-type required storage deposit totals (`aliasDeposit` models the
source field `alias`, renamed because `alias` is a reserved word here). -/
structure RequiredStorageDeposit where
  basic : Nat
  aliasDeposit : Nat
  foundry : Nat
  nft : Nat
deriving DecidableEq

/-- One per-native-token balance entry of the result. -/
structure NativeTokensBalance where
  token_id : TokenId
  total : Nat
  available : Nat
  metadata : Option Nat
deriving DecidableEq

/-- The result value `Balance`; `potentially_locked_outputs` is a map from
OutputId to Bool, modelled as an association list where the first entry for a
key shadows later ones. -/
structure Balance where
  base_coin : BaseCoinBalance
  required_storage_deposit : RequiredStorageDeposit
  native_tokens : List NativeTokensBalance
  aliases : List Nat
  foundries : List Nat
  nfts : List Nat
  potentially_locked_outputs : List (OutputId × Bool)
deriving DecidableEq

/-- Value `Balance::default()`. -/
def Balance.empty : Balance where
  base_coin := { total := 0, available := 0, voting_power := 0 }
  required_storage_deposit := { basic := 0, aliasDeposit := 0, foundry := 0, nft := 0 }
  native_tokens := []
  aliases := []
  foundries := []
  nfts := []
  potentially_locked_outputs := []

/-- Modelled from the spec: the `Balance += Balance` merge of a per-output
fragment into the running balance (the `AddAssign` impl is not part of this
excerpt): numeric fields add, asset and token lists concatenate, and the
potentially-locked maps concatenate. -/
def Balance.add (a b : Balance) : Balance where
  base_coin :=
    { total := a.base_coin.total + b.base_coin.total
      available := a.base_coin.available + b.base_coin.available
      voting_power := a.base_coin.voting_power + b.base_coin.voting_power }
  required_storage_deposit :=
    { basic := a.required_storage_deposit.basic + b.required_storage_deposit.basic
      aliasDeposit := a.required_storage_deposit.aliasDeposit + b.required_storage_deposit.aliasDeposit
      foundry := a.required_storage_deposit.foundry + b.required_storage_deposit.foundry
      nft := a.required_storage_deposit.nft + b.required_storage_deposit.nft }
  native_tokens := a.native_tokens ++ b.native_tokens
  aliases := a.aliases ++ b.aliases
  foundries := a.foundries ++ b.foundries
  nfts := a.nfts ++ b.nfts
  potentially_locked_outputs := a.potentially_locked_outputs ++ b.potentially_locked_outputs

/-- Key membership in the `potentially_locked_outputs` map. -/
def pl_contains_key (m : List (OutputId × Bool)) (id : OutputId) : Bool :=
  m.any (fun p => p.1 == id)

/-- An output together with the network id it belongs to (`OutputData`). -/
structure OutputData where
  output : Output
  network_id : Nat
deriving DecidableEq

/-- An address owned by the wallet plus its unspent OutputIds. -/
structure AddressWithUnspentOutputs where
  address : Address
  output_ids : List OutputId
deriving DecidableEq

/-- Read-only account state consumed by the engine (`AccountDetails`):
the unspent-output map, the reserved ("locked") OutputId set, the
addresses-with-unspent-outputs list, and foundry metadata keyed by the token id
whose `FoundryId` it matches. -/
structure AccountDetails where
  unspent_outputs : List (OutputId × OutputData)
  locked_outputs : List OutputId
  addresses_with_unspent_outputs : List AddressWithUnspentOutputs
  native_token_foundries : List (TokenId × Option Nat)

/-- Errors surfaced by balance resolution.  `panic` models a Rust panic (a
failed `expect` or an underflowing `U256` subtraction), which is distinct from
a returned `Err` (`block`). -/
inductive WalletError where
  | block (e : BlockError)
  | panic (msg : String)
deriving DecidableEq

/-- Resolution context: the engine's parameters and external collaborators
(current network id, rent cost, claimable-output set, ledger time, committable
ages, the full owned-address list, the feature-flagged voting output, and the
account snapshot). -/
structure Ctx where
  network_id : Nat
  rent_cost : Output → Nat
  claimable_outputs : List OutputId
  account_addresses : List Address
  local_time : Nat
  min_committable_age : Nat
  max_committable_age : Nat
  participation : Bool
  voting_output : Option (Address × Nat)
  details : AccountDetails

/-- Modelled from the spec: the account-level forever-unlockability check
called by `balance_inner` (its body is not part of this excerpt); it evaluates
`can_output_be_unlocked_forever_from_now_on` against every
address-with-unspent-outputs of the account at the current time. -/
def account_can_unlock_forever (addresses : List AddressWithUnspentOutputs) (output : Output)
    (slot_index : SlotIndex) (min_committable_age max_committable_age : Nat) : Bool :=
  addresses.any fun a =>
    can_output_be_unlocked_forever_from_now_on a.address output slot_index
      min_committable_age max_committable_age

/-- Balance and accumulators threaded through the loops of `balance_inner`. -/
structure LoopState where
  balance : Balance
  total_rent_amount : Nat
  total_native_tokens : NativeTokensBuilder
deriving DecidableEq

/-- Whether the unlock-condition set is exactly a single plain Address
condition (the `if let [UnlockCondition::Address(_)]` pattern). -/
def is_single_address : UnlockConditions → Bool
  | [UnlockCondition.address _] => true
  | _ => false

/-- The per-output `Balance` fragment (`output_balance` in the source): the
base-coin amount plus the per-type rent bucket and asset-id entry. -/
def output_fragment (output : Output) (rent : Nat) : Balance :=
  let fragment0 : Balance :=
    { Balance.empty with base_coin.total := Balance.empty.base_coin.total + output.amount }
  match output.kind with
  | .basic =>
    { fragment0 with required_storage_deposit.basic :=
        fragment0.required_storage_deposit.basic + rent }
  | .aliasOutput =>
    { fragment0 with
        required_storage_deposit.aliasDeposit :=
          fragment0.required_storage_deposit.aliasDeposit + rent
        aliases := fragment0.aliases ++ [output.asset_id] }
  | .foundry =>
    { fragment0 with
        required_storage_deposit.foundry :=
          fragment0.required_storage_deposit.foundry + rent
        foundries := fragment0.foundries ++ [output.asset_id] }
  | .nft =>
    { fragment0 with
        required_storage_deposit.nft := fragment0.required_storage_deposit.nft + rent
        nfts := fragment0.nfts ++ [output.asset_id] }
  | .treasury => fragment0

/-- The rent reservation of one output (what the loop adds to
`total_rent_amount`): zero for reserved outputs, zero for basic outputs
without native tokens (they can be spent without burning), the rent otherwise. -/
def rent_addition (ctx : Ctx) (output_id : OutputId) (output : Output) (rent : Nat) : Nat :=
  if !(ctx.details.locked_outputs.contains output_id) then
    if output.is_basic then
      if (output.native_tokens.map (fun nts => !nts.isEmpty)).getD false then rent else 0
    else rent
  else 0

/-- Folding an output's native tokens (when present) into a builder. -/
def updated_native_tokens (b : NativeTokensBuilder) (output : Output) :
    Except BlockError NativeTokensBuilder :=
  match output.native_tokens with
  | some native_tokens => NativeTokensBuilder.add_native_tokens b native_tokens
  | none => .ok b

/-- The StorageDepositReturn adjustment of a merged fragment: when the return
address is not one of the account addresses, the return amount is subtracted
from the fragment's base-coin total (that part is earmarked to leave the
wallet).  The protocol guarantees the return amount does not exceed the output
amount, so the u64 subtraction cannot underflow. -/
def sdr_adjusted_fragment (ctx : Ctx) (fragment : Balance)
    (unlock_conditions : UnlockConditions) : Balance :=
  match UnlockConditions.storage_deposit_return unlock_conditions with
  | some sdr =>
    if !(ctx.account_addresses.any (fun a => a == sdr.return_address)) then
      { fragment with base_coin.total := fragment.base_coin.total - sdr.amount }
    else fragment
  | none => fragment

/-- The spendability classification of one output (the trailing
`if let [UnlockCondition::Address(_)] ... else ...` of the loop body): merge
the fragment, or record the output as potentially locked, or drop it. -/
def classify_output (ctx : Ctx) (balance : Balance) (output_id : OutputId) (output : Output)
    (fragment : Balance) (unlock_conditions : UnlockConditions) : Balance :=
  if is_single_address unlock_conditions then
    Balance.add balance fragment
  else
    let is_claimable := ctx.claimable_outputs.contains output_id
    if is_claimable then
      if account_can_unlock_forever ctx.details.addresses_with_unspent_outputs output
          ctx.local_time ctx.min_committable_age ctx.max_committable_age then
        Balance.add balance (sdr_adjusted_fragment ctx fragment unlock_conditions)
      else
        { balance with potentially_locked_outputs :=
            (output_id, true) :: balance.potentially_locked_outputs }
    else
      match UnlockConditions.expiration unlock_conditions with
      | some expiration =>
        -- Not yet expired: could become unlockable when it expires.
        if ctx.local_time < expiration.timestamp then
          { balance with potentially_locked_outputs :=
              (output_id, false) :: balance.potentially_locked_outputs }
        else
          balance
      | none =>
        { balance with potentially_locked_outputs :=
            (output_id, false) :: balance.potentially_locked_outputs }

/-- One iteration of the per-OutputId loop of `balance_inner`: look the output
up, skip cross-network outputs, account rent and native tokens, then classify
spendability.  The `expect` on a missing unlock-condition set is modelled as
`WalletError.panic`. -/
def process_output (ctx : Ctx) (st : LoopState) (output_id : OutputId) :
    Except WalletError LoopState :=
  match ctx.details.unspent_outputs.lookup output_id with
  | none => .ok st
  | some data =>
    if data.network_id != ctx.network_id then .ok st
    else
      let output := data.output
      let rent := ctx.rent_cost output
      match updated_native_tokens st.total_native_tokens output with
      | .error e => .error (.block e)
      | .ok tnt =>
        match output.unlock_conditions with
        | none => .error (.panic "output needs to have unlock conditions")
        | some unlock_conditions =>
          .ok { balance := classify_output ctx st.balance output_id output
                  (output_fragment output rent) unlock_conditions
                total_rent_amount := st.total_rent_amount + rent_addition ctx output_id output rent
                total_native_tokens := tnt }

/-- The feature-flagged voting-power side channel of the per-address loop:
when the voting output's address matches the current address, its amount is
stored as the base-coin voting power. -/
def voting_adjusted (ctx : Ctx) (st : LoopState)
    (address_with_unspent_outputs : AddressWithUnspentOutputs) : LoopState :=
  if ctx.participation then
    match ctx.voting_output with
    | some voting =>
      if voting.1 == address_with_unspent_outputs.address then
        { st with balance.base_coin.voting_power := voting.2 }
      else st
    | none => st
  else st

/-- One iteration of the per-address loop of `balance_inner`: the feature-
flagged voting-power side channel, then the per-OutputId loop. -/
def process_address (ctx : Ctx) (st : LoopState)
    (address_with_unspent_outputs : AddressWithUnspentOutputs) :
    Except WalletError LoopState :=
  address_with_unspent_outputs.output_ids.foldlM (process_output ctx)
    (voting_adjusted ctx st address_with_unspent_outputs)

/-- The initial loop state of `balance_inner`. -/
def initial_state : LoopState where
  balance := Balance.empty
  total_rent_amount := 0
  total_native_tokens := []

/-- The main loop of `balance_inner` over the given addresses. -/
def run_balance_loop (ctx : Ctx) (addrs : List AddressWithUnspentOutputs) :
    Except WalletError LoopState :=
  addrs.foldlM (process_address ctx) initial_state

/-- One step of the reconciliation fold of `finish` over the reserved
("locked") OutputIds: skip ids recorded in `potentially_locked_outputs`,
then add same-network amounts and native tokens to the locked-side totals. -/
def locked_step (ctx : Ctx) (pl : List (OutputId × Bool)) (acc : Nat × NativeTokensBuilder)
    (locked_output : OutputId) : Except WalletError (Nat × NativeTokensBuilder) :=
  if pl_contains_key pl locked_output then .ok acc
  else
    match ctx.details.unspent_outputs.lookup locked_output with
    | none => .ok acc
    | some output_data =>
      if output_data.network_id == ctx.network_id then
        match output_data.output.native_tokens with
        | some native_tokens =>
          match NativeTokensBuilder.add_native_tokens acc.2 native_tokens with
          | .ok b => .ok (acc.1 + output_data.output.amount, b)
          | .error e => .error (.block e)
        | none => .ok (acc.1 + output_data.output.amount, acc.2)
      else .ok acc

/-- One entry of the native-token reconciliation of `finish`: available is
total minus the locked amount for that token id, an unguarded `U256`
subtraction that panics on underflow, with foundry metadata attached. -/
def native_token_entry (ctx : Ctx) (locked_native_tokens : NativeTokensBuilder)
    (native_token : TokenId × Nat) : Except WalletError NativeTokensBalance :=
  if NativeTokensBuilder.amount locked_native_tokens native_token.1 ≤ native_token.2 then
    .ok { token_id := native_token.1, total := native_token.2,
          available := native_token.2 -
            NativeTokensBuilder.amount locked_native_tokens native_token.1,
          metadata := (ctx.details.native_token_foundries.lookup native_token.1).join }
  else
    .error (.panic "attempt to subtract with overflow")

/-- The per-token reconciliation loop of `finish` over the finalized claimed
totals, pushing one balance entry per token and aborting on the first failing
entry. -/
def native_token_entries (ctx : Ctx) (locked_native_tokens : NativeTokensBuilder) :
    List (TokenId × Nat) → Except WalletError (List NativeTokensBalance)
  | [] => .ok []
  | native_token :: rest =>
    match native_token_entry ctx locked_native_tokens native_token with
    | .error e => .error e
    | .ok entry =>
      match native_token_entries ctx locked_native_tokens rest with
      | .error e => .error e
      | .ok entries => .ok (entry :: entries)

/-- The finalization pass `finish`: fold the reserved outputs into the
locked-side totals, add `total_rent_amount`, reconcile the native tokens, and
compute the saturating base-coin availability (additionally subtracting the
voting power when the participation feature is active). -/
def finish (ctx : Ctx) (balance : Balance) (total_rent_amount : Nat)
    (total_native_tokens : NativeTokensBuilder) : Except WalletError Balance :=
  match ctx.details.locked_outputs.foldlM
      (locked_step ctx balance.potentially_locked_outputs) (0, ([] : NativeTokensBuilder)) with
  | .error e => .error e
  | .ok (locked_amount0, locked_native_tokens) =>
    let locked_amount := locked_amount0 + total_rent_amount
    match NativeTokensBuilder.finish_set total_native_tokens with
    | .error e => .error (.block e)
    | .ok finished =>
      match native_token_entries ctx locked_native_tokens finished with
      | .error e => .error e
      | .ok entries =>
        let balance1 := { balance with native_tokens := balance.native_tokens ++ entries }
        let available :=
          if ctx.participation then
            balance1.base_coin.total - locked_amount - balance1.base_coin.voting_power
          else
            balance1.base_coin.total - locked_amount
        .ok { balance1 with base_coin.available := available }

/-- The engine `balance_inner`: the main loop followed by `finish`. -/
def balance_inner (ctx : Ctx) (addrs : List AddressWithUnspentOutputs) :
    Except WalletError Balance :=
  match run_balance_loop ctx addrs with
  | .error e => .error e
  | .ok st => finish ctx st.balance st.total_rent_amount st.total_native_tokens

/-- Public operation `Account::balance`: resolve over all
addresses-with-unspent-outputs of the account. -/
def account_balance (ctx : Ctx) : Except WalletError Balance :=
  balance_inner ctx ctx.details.addresses_with_unspent_outputs

/-- The classification fate of one OutputId under the loop body: skipped,
merged into the running balance, recorded in `potentially_locked_outputs`
(with which flag), dropped, or hitting the missing-unlock-conditions panic.
The fate depends only on the resolution context, not on the running state. -/
inductive OutputFate where
  | skipped
  | merged
  | pending (flag : Bool)
  | dropped
  | panicked
deriving DecidableEq

/-- The fate taken by the spendability classification for an output with the
given unlock-condition set, read off the branch structure of
`classify_output`. -/
def classify_fate (ctx : Ctx) (output_id : OutputId) (output : Output)
    (unlock_conditions : UnlockConditions) : OutputFate :=
  if is_single_address unlock_conditions then .merged
  else if ctx.claimable_outputs.contains output_id then
    if account_can_unlock_forever ctx.details.addresses_with_unspent_outputs output
        ctx.local_time ctx.min_committable_age ctx.max_committable_age then
      .merged
    else .pending true
  else
    match UnlockConditions.expiration unlock_conditions with
    | some expiration =>
      if ctx.local_time < expiration.timestamp then .pending false else .dropped
    | none => .pending false

/-- The fate taken by `process_output` for an OutputId, read off the branch
structure of the loop body. -/
def output_fate (ctx : Ctx) (output_id : OutputId) : OutputFate :=
  match ctx.details.unspent_outputs.lookup output_id with
  | none => .skipped
  | some data =>
    if data.network_id != ctx.network_id then .skipped
    else
      match data.output.unlock_conditions with
      | none => .panicked
      | some unlock_conditions => classify_fate ctx output_id data.output unlock_conditions

/-- Specification-side locked base-coin amount (for the refinement claim about
`finish`): the sum of base-coin amounts of same-network reserved outputs not
recorded in `potentially_locked_outputs`. -/
def spec_locked_amount (ctx : Ctx) (pl : List (OutputId × Bool)) : Nat :=
  ((ctx.details.locked_outputs.filter (fun id => !pl_contains_key pl id)).filterMap
    (fun id =>
      match ctx.details.unspent_outputs.lookup id with
      | some od => if od.network_id == ctx.network_id then some od.output.amount else none
      | none => none)).sum

/-- Total amount of a given token id inside one output's native-token list. -/
def token_amount_in (nts : List (TokenId × Nat)) (t : TokenId) : Nat :=
  ((nts.filter (fun p => p.1 == t)).map (fun p => p.2)).sum

/-- Amount of a given token id contributed by one OutputId to the claimed-side
aggregation (zero for unknown or cross-network outputs). -/
def output_token_amount (ctx : Ctx) (output_id : OutputId) (t : TokenId) : Nat :=
  match ctx.details.unspent_outputs.lookup output_id with
  | some data =>
    if data.network_id == ctx.network_id then
      match data.output.native_tokens with
      | some nts => token_amount_in nts t
      | none => 0
    else 0
  | none => 0

/-- All OutputIds visited by the main loop over the given addresses. -/
def processed_ids (addrs : List AddressWithUnspentOutputs) : List OutputId :=
  addrs.flatMap (fun a => a.output_ids)

/-! Concrete fixtures used by the witness theorems. -/

/-- A fixture output: basic, single Address condition, no native tokens. -/
def exOutput1 : Output :=
  { kind := .basic, amount := 1000, native_tokens := none
    unlock_conditions := some [UnlockCondition.address 100], asset_id := 0 }

/-- A fixture output: basic with a native token and a StorageDepositReturn of
50 to a non-wallet address. -/
def exOutput2 : Output :=
  { kind := .basic, amount := 200, native_tokens := some [(5, 3)]
    unlock_conditions := some
      [UnlockCondition.address 100,
       UnlockCondition.storageDepositReturn { return_address := 999, amount := 50 }]
    asset_id := 0 }

/-- A fixture output: basic with an immature timelock and no expiration. -/
def exOutput4 : Output :=
  { kind := .basic, amount := 400, native_tokens := none
    unlock_conditions := some
      [UnlockCondition.address 100, UnlockCondition.timelock { slot := 99 }]
    asset_id := 0 }

/-- A fixture output: basic with a not-yet-expired Expiration condition. -/
def exOutput5 : Output :=
  { kind := .basic, amount := 500, native_tokens := none
    unlock_conditions := some
      [UnlockCondition.address 100,
       UnlockCondition.expiration { return_address := 200, timestamp := 80 }]
    asset_id := 0 }

/-- A fixture output: basic, reserved by a pending operation, with a native
token. -/
def exOutput6 : Output :=
  { kind := .basic, amount := 300, native_tokens := some [(5, 2)]
    unlock_conditions := some [UnlockCondition.address 100], asset_id := 0 }

/-- The fixture account snapshot. -/
def exDetails : AccountDetails :=
  { unspent_outputs :=
      [(1, { output := exOutput1, network_id := 7 }),
       (2, { output := exOutput2, network_id := 7 }),
       (4, { output := exOutput4, network_id := 7 }),
       (5, { output := exOutput5, network_id := 7 }),
       (6, { output := exOutput6, network_id := 7 })]
    locked_outputs := [6]
    addresses_with_unspent_outputs := [{ address := 100, output_ids := [1, 2, 4, 5, 6] }]
    native_token_foundries := [] }

/-- The fixture resolution context. -/
def exCtx : Ctx :=
  { network_id := 7
    rent_cost := fun _ => 10
    claimable_outputs := [2]
    account_addresses := [100]
    local_time := 50
    min_committable_age := 0
    max_committable_age := 0
    participation := false
    voting_output := none
    details := exDetails }

/-- A fixture output with no unlock conditions at all (for the panic case). -/
def exOutputNoUc : Output :=
  { kind := .treasury, amount := 50, native_tokens := none
    unlock_conditions := none, asset_id := 0 }

/-- A fixture context whose only output carries no unlock conditions. -/
def exCtxNoUc : Ctx :=
  { network_id := 7
    rent_cost := fun _ => 10
    claimable_outputs := []
    account_addresses := [100]
    local_time := 50
    min_committable_age := 0
    max_committable_age := 0
    participation := false
    voting_output := none
    details :=
      { unspent_outputs := [(9, { output := exOutputNoUc, network_id := 7 })]
        locked_outputs := []
        addresses_with_unspent_outputs := [{ address := 100, output_ids := [9] }]
        native_token_foundries := [] } }

/-! ### Claims about the temporal predicates and the Timelock condition -/

/-- C2: for a Timelock unlock condition with lock slot `L`, `is_timelocked`
at reference slot `s` and minimum committable age `m` returns true iff
`s + m < L`; at the exact boundary `s + m = L` it returns false (the output is
not timelocked). -/
theorem is_timelocked_iff_lt (t : TimelockUnlockCondition)
    (slot_index min_committable_age : SlotIndex) :
    (t.is_timelocked slot_index min_committable_age = true ↔
      slot_index + min_committable_age < t.slot) ∧
    (slot_index + min_committable_age = t.slot →
      t.is_timelocked slot_index min_committable_age = false) := by
  constructor
  · simp [TimelockUnlockCondition.is_timelocked]
  · intro h
    simp [TimelockUnlockCondition.is_timelocked, h]

/-- Witness for C2 at the exact boundary: slot 3, age 4, lock slot 7. -/
theorem is_timelocked_iff_lt_witness :
    TimelockUnlockCondition.is_timelocked { slot := 7 } 3 4 = false :=
  (is_timelocked_iff_lt { slot := 7 } 3 4).2 (by decide)

/-- C4: constructing a `TimelockUnlockCondition` succeeds for every positive
slot index, with `slot_index()` returning that index, and fails with the
dedicated zero error for slot index 0. -/
theorem timelock_new_spec :
    (∀ s : SlotIndex, 0 < s →
      ∃ t, TimelockUnlockCondition.new s = .ok t ∧ t.slot_index = s) ∧
    TimelockUnlockCondition.new 0 = .error .timelockUnlockConditionZero := by
  constructor
  · intro s hs
    refine ⟨{ slot := s }, ?_, rfl⟩
    have hne : s ≠ 0 := Nat.pos_iff_ne_zero.mp hs
    simp [TimelockUnlockCondition.new, verify_slot_index, hne]
  · rfl

/-- Witness for C4 at slot index 5. -/
theorem timelock_new_spec_witness :
    ∃ t, TimelockUnlockCondition.new 5 = .ok t ∧ t.slot_index = 5 :=
  timelock_new_spec.1 5 (by decide)

/-- C3: `can_output_be_unlocked_forever_from_now_on` returns false when the
output carries no unlock conditions at all or its Timelock has not matured
(per `is_timelocked`), and returns true for every output with a non-empty
unlock-condition set whose Timelock (if any) has matured, regardless of any
Expiration condition present. -/
theorem can_unlock_forever_spec (wallet_address : Address) (output : Output)
    (slot_index : SlotIndex) (min_committable_age max_committable_age : Nat) :
    (output.unlock_conditions = none →
      can_output_be_unlocked_forever_from_now_on wallet_address output slot_index
        min_committable_age max_committable_age = false) ∧
    (∀ ucs, output.unlock_conditions = some ucs →
      UnlockConditions.is_timelocked ucs slot_index min_committable_age = true →
      can_output_be_unlocked_forever_from_now_on wallet_address output slot_index
        min_committable_age max_committable_age = false) ∧
    (∀ ucs, output.unlock_conditions = some ucs → ucs ≠ [] →
      UnlockConditions.is_timelocked ucs slot_index min_committable_age = false →
      can_output_be_unlocked_forever_from_now_on wallet_address output slot_index
        min_committable_age max_committable_age = true) := by
  refine ⟨?_, ?_, ?_⟩
  · intro h
    simp [can_output_be_unlocked_forever_from_now_on, h]
  · intro ucs h ht
    simp [can_output_be_unlocked_forever_from_now_on, h, ht]
  · intro ucs h hne ht
    simp [can_output_be_unlocked_forever_from_now_on, h, ht]

/-- Witness for C3: an output with Address, Expiration and a matured Timelock
condition is forever-unlockable at slot 20. -/
theorem can_unlock_forever_spec_witness :
    can_output_be_unlocked_forever_from_now_on 100
      { kind := .basic, amount := 10, native_tokens := none
        unlock_conditions := some
          [UnlockCondition.address 100,
           UnlockCondition.expiration { return_address := 200, timestamp := 80 },
           UnlockCondition.timelock { slot := 10 }]
        asset_id := 0 } 20 0 0 = true :=
  (can_unlock_forever_spec 100
    { kind := .basic, amount := 10, native_tokens := none
      unlock_conditions := some
        [UnlockCondition.address 100,
         UnlockCondition.expiration { return_address := 200, timestamp := 80 },
         UnlockCondition.timelock { slot := 10 }]
      asset_id := 0 } 20 0 0).2.2 _ rfl (by decide) (by decide)

/-! ### Step lemmas about the loop body -/

/-- An OutputId absent from the unspent-output map is skipped. -/
theorem process_output_skip_none (ctx : Ctx) (st : LoopState) (output_id : OutputId)
    (hfound : ctx.details.unspent_outputs.lookup output_id = none) :
    process_output ctx st output_id = .ok st := by
  unfold process_output
  rw [hfound]

/-- A cross-network output is skipped. -/
theorem process_output_skip_network (ctx : Ctx) (st : LoopState) (output_id : OutputId)
    (data : OutputData)
    (hfound : ctx.details.unspent_outputs.lookup output_id = some data)
    (hnet : data.network_id ≠ ctx.network_id) :
    process_output ctx st output_id = .ok st := by
  unfold process_output
  rw [hfound]
  simp [hnet]

/-- A native-token overflow aborts the step with the propagated block error. -/
theorem process_output_block (ctx : Ctx) (st : LoopState) (output_id : OutputId)
    (data : OutputData) (e : BlockError)
    (hfound : ctx.details.unspent_outputs.lookup output_id = some data)
    (hnet : data.network_id = ctx.network_id)
    (htok : updated_native_tokens st.total_native_tokens data.output = .error e) :
    process_output ctx st output_id = .error (.block e) := by
  unfold process_output
  rw [hfound]
  simp [hnet, htok]

/-- A same-network output without unlock conditions hits the modelled panic. -/
theorem process_output_panic_ucs (ctx : Ctx) (st : LoopState) (output_id : OutputId)
    (data : OutputData) (tnt : NativeTokensBuilder)
    (hfound : ctx.details.unspent_outputs.lookup output_id = some data)
    (hnet : data.network_id = ctx.network_id)
    (htok : updated_native_tokens st.total_native_tokens data.output = .ok tnt)
    (hucs : data.output.unlock_conditions = none) :
    process_output ctx st output_id =
      .error (.panic "output needs to have unlock conditions") := by
  unfold process_output
  rw [hfound]
  simp [hnet, htok, hucs]

/-- The successful step: rent accounting, native-token aggregation, and the
spendability classification of the balance. -/
theorem process_output_ok_eq (ctx : Ctx) (st : LoopState) (output_id : OutputId)
    (data : OutputData) (tnt : NativeTokensBuilder) (ucs : UnlockConditions)
    (hfound : ctx.details.unspent_outputs.lookup output_id = some data)
    (hnet : data.network_id = ctx.network_id)
    (htok : updated_native_tokens st.total_native_tokens data.output = .ok tnt)
    (hucs : data.output.unlock_conditions = some ucs) :
    process_output ctx st output_id = .ok
      { balance := classify_output ctx st.balance output_id data.output
          (output_fragment data.output (ctx.rent_cost data.output)) ucs
        total_rent_amount := st.total_rent_amount +
          rent_addition ctx output_id data.output (ctx.rent_cost data.output)
        total_native_tokens := tnt } := by
  unfold process_output
  rw [hfound]
  simp [hnet, htok, hucs]

/-- The classification fate is never `skipped` or `panicked`. -/
theorem classify_fate_not_skipped (ctx : Ctx) (output_id : OutputId) (output : Output)
    (ucs : UnlockConditions) :
    classify_fate ctx output_id output ucs ≠ .skipped ∧
    classify_fate ctx output_id output ucs ≠ .panicked := by
  unfold classify_fate
  split
  · simp
  · split
    · split <;> simp
    · split
      · split <;> simp
      · simp

/-- Inversion of a successful step: either it was a skip with an unchanged
state, or the output was found on the current network with unlock conditions
and the state is the classified update. -/
theorem process_output_ok_inv (ctx : Ctx) (st st' : LoopState) (output_id : OutputId)
    (hok : process_output ctx st output_id = .ok st') :
    (output_fate ctx output_id = .skipped ∧ st' = st) ∨
    (∃ data ucs tnt,
      ctx.details.unspent_outputs.lookup output_id = some data ∧
      data.network_id = ctx.network_id ∧
      data.output.unlock_conditions = some ucs ∧
      updated_native_tokens st.total_native_tokens data.output = .ok tnt ∧
      st' = { balance := classify_output ctx st.balance output_id data.output
                (output_fragment data.output (ctx.rent_cost data.output)) ucs
              total_rent_amount := st.total_rent_amount +
                rent_addition ctx output_id data.output (ctx.rent_cost data.output)
              total_native_tokens := tnt }) := by
  cases hfound : ctx.details.unspent_outputs.lookup output_id with
  | none =>
    rw [process_output_skip_none ctx st output_id hfound] at hok
    refine Or.inl ⟨?_, by injection hok with h; exact h.symm⟩
    unfold output_fate
    rw [hfound]
  | some data =>
    by_cases hnet : data.network_id = ctx.network_id
    · cases htok : updated_native_tokens st.total_native_tokens data.output with
      | error e =>
        rw [process_output_block ctx st output_id data e hfound hnet htok] at hok
        exact absurd hok (by simp)
      | ok tnt =>
        cases hucs : data.output.unlock_conditions with
        | none =>
          rw [process_output_panic_ucs ctx st output_id data tnt hfound hnet htok hucs] at hok
          exact absurd hok (by simp)
        | some ucs =>
          rw [process_output_ok_eq ctx st output_id data tnt ucs hfound hnet htok hucs] at hok
          injection hok with h
          exact Or.inr ⟨data, ucs, tnt, rfl, hnet, hucs, htok, h.symm⟩
    · rw [process_output_skip_network ctx st output_id data hfound hnet] at hok
      refine Or.inl ⟨?_, by injection hok with h; exact h.symm⟩
      unfold output_fate
      rw [hfound]
      simp [hnet]

/-- A found, same-network output is not skipped by the fate function. -/
theorem output_fate_not_skipped (ctx : Ctx) (output_id : OutputId) (data : OutputData)
    (hfound : ctx.details.unspent_outputs.lookup output_id = some data)
    (hnet : data.network_id = ctx.network_id) :
    output_fate ctx output_id ≠ .skipped := by
  unfold output_fate
  rw [hfound]
  simp only [hnet, bne_self_eq_false, Bool.false_eq_true, if_false]
  cases data.output.unlock_conditions with
  | none => simp
  | some ucs => exact (classify_fate_not_skipped ctx output_id data.output ucs).1

/-- The per-output fragment carries no potentially-locked entries. -/
theorem output_fragment_pl (output : Output) (rent : Nat) :
    (output_fragment output rent).potentially_locked_outputs = [] := by
  rcases output with ⟨k, amount, nt, uc, aid⟩
  cases k <;> rfl

/-- The per-output fragment's base-coin total is the output's amount. -/
theorem output_fragment_total (output : Output) (rent : Nat) :
    (output_fragment output rent).base_coin.total = output.amount := by
  rcases output with ⟨k, amount, nt, uc, aid⟩
  cases k <;> simp [output_fragment, Balance.empty]

/-- Merging concatenates the potentially-locked maps. -/
theorem balance_add_pl (a b : Balance) :
    (Balance.add a b).potentially_locked_outputs =
      a.potentially_locked_outputs ++ b.potentially_locked_outputs := rfl

/-- Merging adds the base-coin totals. -/
theorem balance_add_total (a b : Balance) :
    (Balance.add a b).base_coin.total = a.base_coin.total + b.base_coin.total := rfl

/-- The StorageDepositReturn adjustment leaves the potentially-locked map of
the fragment unchanged. -/
theorem sdr_adjusted_fragment_pl (ctx : Ctx) (fragment : Balance) (ucs : UnlockConditions) :
    (sdr_adjusted_fragment ctx fragment ucs).potentially_locked_outputs =
      fragment.potentially_locked_outputs := by
  unfold sdr_adjusted_fragment
  cases UnlockConditions.storage_deposit_return ucs with
  | none => rfl
  | some sdr =>
    dsimp only
    split <;> rfl

/-- The StorageDepositReturn adjustment of the fragment's base-coin total when
a StorageDepositReturn condition is present. -/
theorem sdr_adjusted_fragment_total (ctx : Ctx) (fragment : Balance) (ucs : UnlockConditions)
    (sdr : StorageDepositReturnUnlockCondition)
    (hsdr : UnlockConditions.storage_deposit_return ucs = some sdr) :
    (sdr_adjusted_fragment ctx fragment ucs).base_coin.total =
      if sdr.return_address ∈ ctx.account_addresses then fragment.base_coin.total
      else fragment.base_coin.total - sdr.amount := by
  unfold sdr_adjusted_fragment
  rw [hsdr]
  by_cases hmem : sdr.return_address ∈ ctx.account_addresses
  · have hany : (ctx.account_addresses.any (fun a => a == sdr.return_address)) = true := by
      simp only [List.any_eq_true, beq_iff_eq]
      exact ⟨sdr.return_address, hmem, rfl⟩
    simp [hany, hmem]
  · have hany : (ctx.account_addresses.any (fun a => a == sdr.return_address)) = false := by
      simp only [List.any_eq_false, beq_iff_eq]
      intro a ha hcontra
      exact hmem (hcontra ▸ ha)
    simp [hany, hmem]

/-- The potentially-locked map produced by the classification, by fate. -/
theorem classify_output_pl (ctx : Ctx) (balance : Balance) (output_id : OutputId)
    (output : Output) (fragment : Balance) (ucs : UnlockConditions)
    (hfrag : fragment.potentially_locked_outputs = []) :
    (classify_output ctx balance output_id output fragment ucs).potentially_locked_outputs =
      match classify_fate ctx output_id output ucs with
      | .pending b => (output_id, b) :: balance.potentially_locked_outputs
      | _ => balance.potentially_locked_outputs := by
  unfold classify_output classify_fate
  by_cases h1 : is_single_address ucs = true
  · simp [h1, balance_add_pl, hfrag]
  · by_cases h2 : output_id ∈ ctx.claimable_outputs
    · by_cases h3 : account_can_unlock_forever ctx.details.addresses_with_unspent_outputs output
          ctx.local_time ctx.min_committable_age ctx.max_committable_age = true
      · simp [h1, h2, h3, balance_add_pl, sdr_adjusted_fragment_pl, hfrag]
      · simp [h1, h2, h3]
    · cases hexp : UnlockConditions.expiration ucs with
      | some expiration =>
        by_cases h4 : ctx.local_time < expiration.timestamp
        · simp [h1, h2, hexp, h4]
        · simp [h1, h2, hexp, h4]
      | none => simp [h1, h2, hexp]

/-- When the fate is `merged`, the classification merges the fragment (with at
most the StorageDepositReturn adjustment) into the running balance. -/
theorem classify_output_merged (ctx : Ctx) (balance : Balance) (output_id : OutputId)
    (output : Output) (fragment : Balance) (ucs : UnlockConditions)
    (hm : classify_fate ctx output_id output ucs = .merged) :
    classify_output ctx balance output_id output fragment ucs = Balance.add balance fragment ∨
    classify_output ctx balance output_id output fragment ucs =
      Balance.add balance (sdr_adjusted_fragment ctx fragment ucs) := by
  unfold classify_output
  unfold classify_fate at hm
  by_cases h1 : is_single_address ucs = true
  · left
    simp [h1]
  · by_cases h2 : output_id ∈ ctx.claimable_outputs
    · by_cases h3 : account_can_unlock_forever ctx.details.addresses_with_unspent_outputs output
          ctx.local_time ctx.min_committable_age ctx.max_committable_age = true
      · right
        simp [h1, h2, h3]
      · exfalso
        simp [h1, h2, h3] at hm
    · exfalso
      simp [h1, h2] at hm
      cases hexp : UnlockConditions.expiration ucs with
      | some expiration =>
        rw [hexp] at hm
        by_cases h4 : ctx.local_time < expiration.timestamp <;> simp [h4] at hm
      | none => rw [hexp] at hm; exact absurd hm (by simp)

/-! ### Claims about the per-output classification -/

/-- C1 counterexample: output 4 of the fixture context is on the current
network, is not exactly a single Address condition, is not claimable now and
has no Expiration condition; the claim says it is dropped with no entry added
to `potentially_locked_outputs`, but the step records
`potentially_locked_outputs[4] = false`. -/
theorem not_claimable_no_expiration_counterexample :
    exOutput4.unlock_conditions =
      some [UnlockCondition.address 100, UnlockCondition.timelock { slot := 99 }] ∧
    UnlockConditions.expiration
      [UnlockCondition.address 100, UnlockCondition.timelock { slot := 99 }] = none ∧
    exCtx.claimable_outputs.contains 4 = false ∧
    process_output exCtx initial_state 4 = .ok
      { balance := { Balance.empty with potentially_locked_outputs := [(4, false)] }
        total_rent_amount := 0
        total_native_tokens := [] } := by
  refine ⟨rfl, rfl, rfl, rfl⟩

/-- C1 (amended): for a same-network output whose condition set is not exactly
one Address condition and that is not claimable now: if it has a not-yet
expired Expiration condition, the step records
`potentially_locked_outputs[OutputId] = false` and merges nothing; if its
Expiration condition is already expired, the output is dropped entirely (the
balance is unchanged, no entry); and if it has no Expiration condition, the
step likewise records `potentially_locked_outputs[OutputId] = false` and
merges nothing. -/
theorem not_claimable_branch_spec (ctx : Ctx) (st st' : LoopState) (output_id : OutputId)
    (data : OutputData) (ucs : UnlockConditions)
    (hfound : ctx.details.unspent_outputs.lookup output_id = some data)
    (hnet : data.network_id = ctx.network_id)
    (hucs : data.output.unlock_conditions = some ucs)
    (hsingle : is_single_address ucs = false)
    (hclaim : ctx.claimable_outputs.contains output_id = false)
    (hok : process_output ctx st output_id = .ok st') :
    st'.balance =
      (match UnlockConditions.expiration ucs with
       | some expiration =>
         if ctx.local_time < expiration.timestamp then
           { st.balance with potentially_locked_outputs :=
               (output_id, false) :: st.balance.potentially_locked_outputs }
         else st.balance
       | none =>
         { st.balance with potentially_locked_outputs :=
             (output_id, false) :: st.balance.potentially_locked_outputs }) := by
  rcases process_output_ok_inv ctx st st' output_id hok with
    ⟨hskip, _⟩ | ⟨data', ucs', tnt, hfound', hnet', hucs', htok', hst'⟩
  · exact absurd hskip (output_fate_not_skipped ctx output_id data hfound hnet)
  · rw [hfound] at hfound'
    injection hfound' with hdd
    subst hdd
    rw [hucs] at hucs'
    injection hucs' with huu
    subst huu
    subst hst'
    show classify_output ctx st.balance output_id data.output
        (output_fragment data.output (ctx.rent_cost data.output)) ucs = _
    unfold classify_output
    simp only [hsingle, hclaim, Bool.false_eq_true, if_false]

/-- Witness for C1 (amended) at fixture output 5 (not claimable, Expiration at
timestamp 80, local time 50): the entry `(5, false)` is recorded. -/
theorem not_claimable_branch_spec_witness :
    ({ balance := { Balance.empty with potentially_locked_outputs := [(5, false)] }
       total_rent_amount := 0
       total_native_tokens := [] } : LoopState).balance =
      (match UnlockConditions.expiration
          [UnlockCondition.address 100,
           UnlockCondition.expiration { return_address := 200, timestamp := 80 }] with
       | some expiration =>
         if exCtx.local_time < expiration.timestamp then
           { initial_state.balance with potentially_locked_outputs :=
               (5, false) :: initial_state.balance.potentially_locked_outputs }
         else initial_state.balance
       | none =>
         { initial_state.balance with potentially_locked_outputs :=
             (5, false) :: initial_state.balance.potentially_locked_outputs }) :=
  not_claimable_branch_spec exCtx initial_state
    { balance := { Balance.empty with potentially_locked_outputs := [(5, false)] }
      total_rent_amount := 0
      total_native_tokens := [] } 5
    { output := exOutput5, network_id := 7 }
    [UnlockCondition.address 100,
     UnlockCondition.expiration { return_address := 200, timestamp := 80 }]
    rfl rfl rfl (by decide) (by decide) rfl

/-- C5: for a same-network output classified as claimable now and unlockable
forever that carries a StorageDepositReturn condition, the base-coin amount
merged into the running total is the output's amount minus the return amount
when the return address is not wallet-owned, and the full amount when it is. -/
theorem sdr_merge_spec (ctx : Ctx) (st st' : LoopState) (output_id : OutputId)
    (data : OutputData) (ucs : UnlockConditions) (sdr : StorageDepositReturnUnlockCondition)
    (hfound : ctx.details.unspent_outputs.lookup output_id = some data)
    (hnet : data.network_id = ctx.network_id)
    (hucs : data.output.unlock_conditions = some ucs)
    (hsingle : is_single_address ucs = false)
    (hclaim : ctx.claimable_outputs.contains output_id = true)
    (hforever : account_can_unlock_forever ctx.details.addresses_with_unspent_outputs
      data.output ctx.local_time ctx.min_committable_age ctx.max_committable_age = true)
    (hsdr : UnlockConditions.storage_deposit_return ucs = some sdr)
    (hok : process_output ctx st output_id = .ok st') :
    st'.balance.base_coin.total = st.balance.base_coin.total +
      (if sdr.return_address ∈ ctx.account_addresses then data.output.amount
       else data.output.amount - sdr.amount) := by
  rcases process_output_ok_inv ctx st st' output_id hok with
    ⟨hskip, _⟩ | ⟨data', ucs', tnt, hfound', hnet', hucs', htok', hst'⟩
  · exact absurd hskip (output_fate_not_skipped ctx output_id data hfound hnet)
  · rw [hfound] at hfound'
    injection hfound' with hdd
    subst hdd
    rw [hucs] at hucs'
    injection hucs' with huu
    subst huu
    subst hst'
    show (classify_output ctx st.balance output_id data.output
        (output_fragment data.output (ctx.rent_cost data.output)) ucs).base_coin.total = _
    unfold classify_output
    simp only [hsingle, hclaim, hforever, Bool.false_eq_true, if_false, if_true]
    rw [balance_add_total,
      sdr_adjusted_fragment_total ctx _ ucs sdr hsdr, output_fragment_total]

/-- Witness for C5 at fixture output 2: amount 200, return amount 50 to a
non-wallet address, contributing 150. -/
theorem sdr_merge_spec_witness :
    ({ balance :=
         { base_coin := { total := 150, available := 0, voting_power := 0 }
           required_storage_deposit := { basic := 10, aliasDeposit := 0, foundry := 0, nft := 0 }
           native_tokens := [], aliases := [], foundries := [], nfts := []
           potentially_locked_outputs := [] }
       total_rent_amount := 10
       total_native_tokens := [(5, 3)] } : LoopState).balance.base_coin.total =
      initial_state.balance.base_coin.total +
        (if (999 : Address) ∈ exCtx.account_addresses then exOutput2.amount
         else exOutput2.amount - 50) :=
  sdr_merge_spec exCtx initial_state
    { balance :=
        { base_coin := { total := 150, available := 0, voting_power := 0 }
          required_storage_deposit := { basic := 10, aliasDeposit := 0, foundry := 0, nft := 0 }
          native_tokens := [], aliases := [], foundries := [], nfts := []
          potentially_locked_outputs := [] }
      total_rent_amount := 10
      total_native_tokens := [(5, 3)] } 2
    { output := exOutput2, network_id := 7 }
    [UnlockCondition.address 100,
     UnlockCondition.storageDepositReturn { return_address := 999, amount := 50 }]
    { return_address := 999, amount := 50 }
    rfl rfl rfl (by decide) (by decide) (by decide) (by decide) rfl

/-- C6: a processed same-network output adds nothing to `total_rent_amount`
when it is reserved, nothing when it is a Basic output without native tokens,
and its rent in every other case. -/
theorem rent_reservation_spec (ctx : Ctx) (st st' : LoopState) (output_id : OutputId)
    (data : OutputData)
    (hfound : ctx.details.unspent_outputs.lookup output_id = some data)
    (hnet : data.network_id = ctx.network_id)
    (hok : process_output ctx st output_id = .ok st') :
    st'.total_rent_amount = st.total_rent_amount +
      (if ctx.details.locked_outputs.contains output_id then 0
       else if data.output.is_basic &&
           !((data.output.native_tokens.map (fun nts => !nts.isEmpty)).getD false) then 0
       else ctx.rent_cost data.output) := by
  rcases process_output_ok_inv ctx st st' output_id hok with
    ⟨hskip, _⟩ | ⟨data', ucs', tnt, hfound', hnet', hucs', htok', hst'⟩
  · exact absurd hskip (output_fate_not_skipped ctx output_id data hfound hnet)
  · rw [hfound] at hfound'
    injection hfound' with hdd
    subst hdd
    subst hst'
    show st.total_rent_amount +
        rent_addition ctx output_id data.output (ctx.rent_cost data.output) = _
    unfold rent_addition
    by_cases hl : output_id ∈ ctx.details.locked_outputs
    · simp [hl]
    · by_cases hb : data.output.is_basic = true
      · by_cases ht : (data.output.native_tokens.map (fun nts => !nts.isEmpty)).getD false = true
        · simp [hl, hb, ht]
        · simp [hl, hb, ht]
      · simp [hl, hb]

/-- Witness for C6 at fixture output 2 (basic with a native token, not
reserved): its rent 10 is added. -/
theorem rent_reservation_spec_witness :
    ({ balance :=
         { base_coin := { total := 150, available := 0, voting_power := 0 }
           required_storage_deposit := { basic := 10, aliasDeposit := 0, foundry := 0, nft := 0 }
           native_tokens := [], aliases := [], foundries := [], nfts := []
           potentially_locked_outputs := [] }
       total_rent_amount := 10
       total_native_tokens := [(5, 3)] } : LoopState).total_rent_amount =
      initial_state.total_rent_amount +
        (if exCtx.details.locked_outputs.contains 2 then 0
         else if exOutput2.is_basic &&
             !((exOutput2.native_tokens.map (fun nts => !nts.isEmpty)).getD false) then 0
         else exCtx.rent_cost exOutput2) :=
  rent_reservation_spec exCtx initial_state
    { balance :=
        { base_coin := { total := 150, available := 0, voting_power := 0 }
          required_storage_deposit := { basic := 10, aliasDeposit := 0, foundry := 0, nft := 0 }
          native_tokens := [], aliases := [], foundries := [], nfts := []
          potentially_locked_outputs := [] }
      total_rent_amount := 10
      total_native_tokens := [(5, 3)] } 2
    { output := exOutput2, network_id := 7 }
    rfl rfl rfl

/-- C9: a processed same-network output with no unlock-condition set does not
yield a returned `Err` but the modelled panic of the spendability
classification (`expect("output needs to have unlock conditions")`); the
fixture resolution over such an output aborts with exactly that panic. -/
theorem missing_unlock_conditions_panic :
    (∀ (ctx : Ctx) (st : LoopState) (output_id : OutputId) (data : OutputData),
      ctx.details.unspent_outputs.lookup output_id = some data →
      data.network_id = ctx.network_id →
      data.output.unlock_conditions = none →
      (∃ tnt, updated_native_tokens st.total_native_tokens data.output = .ok tnt) →
      process_output ctx st output_id =
        .error (.panic "output needs to have unlock conditions")) ∧
    account_balance exCtxNoUc = .error (.panic "output needs to have unlock conditions") := by
  constructor
  · intro ctx st output_id data hfound hnet hucs htok
    obtain ⟨tnt, htok⟩ := htok
    exact process_output_panic_ucs ctx st output_id data tnt hfound hnet htok hucs
  · rfl

/-- Witness for C9 at the fixture output 9 without unlock conditions. -/
theorem missing_unlock_conditions_panic_witness :
    process_output exCtxNoUc initial_state 9 =
      .error (.panic "output needs to have unlock conditions") :=
  missing_unlock_conditions_panic.1 exCtxNoUc initial_state 9
    { output := exOutputNoUc, network_id := 7 } rfl rfl rfl ⟨[], rfl⟩

/-! ### Loop invariants: the potentially-locked map -/

/-- Binding an error in `Except` is the error. -/
theorem except_error_bind {ε α β : Type} (e : ε) (g : α → Except ε β) :
    (Except.error e >>= g) = Except.error e := rfl

/-- Binding a success in `Except` applies the continuation. -/
theorem except_ok_bind {ε α β : Type} (a : α) (g : α → Except ε β) :
    (Except.ok a >>= g) = g a := rfl

/-- Key membership after a cons on the potentially-locked map. -/
theorem pl_contains_key_cons (x id : OutputId) (b : Bool) (m : List (OutputId × Bool)) :
    pl_contains_key ((x, b) :: m) id = ((x == id) || pl_contains_key m id) := by
  simp [pl_contains_key]

/-- The per-step potentially-locked update, by fate. -/
theorem process_output_pl (ctx : Ctx) (st st' : LoopState) (output_id : OutputId)
    (hok : process_output ctx st output_id = .ok st') :
    st'.balance.potentially_locked_outputs =
      match output_fate ctx output_id with
      | .pending b => (output_id, b) :: st.balance.potentially_locked_outputs
      | _ => st.balance.potentially_locked_outputs := by
  rcases process_output_ok_inv ctx st st' output_id hok with
    ⟨hskip, hst⟩ | ⟨data, ucs, tnt, hfound, hnet, hucs, htok, hst⟩
  · subst hst
    rw [hskip]
  · have hfate : output_fate ctx output_id = classify_fate ctx output_id data.output ucs := by
      unfold output_fate
      rw [hfound]
      simp [hnet, hucs]
    subst hst
    rw [hfate]
    show (classify_output ctx st.balance output_id data.output
        (output_fragment data.output (ctx.rent_cost data.output)) ucs).potentially_locked_outputs
      = _
    rw [classify_output_pl ctx st.balance output_id data.output _ ucs
      (output_fragment_pl data.output (ctx.rent_cost data.output))]

/-- Keys of the potentially-locked map after the inner loop: the starting keys
plus the visited OutputIds whose fate is `pending`. -/
theorem foldlM_process_output_pl (ctx : Ctx) (ids : List OutputId) (st st' : LoopState)
    (hok : ids.foldlM (process_output ctx) st = .ok st') (id : OutputId) :
    pl_contains_key st'.balance.potentially_locked_outputs id = true ↔
      (pl_contains_key st.balance.potentially_locked_outputs id = true ∨
        (id ∈ ids ∧ ∃ b, output_fate ctx id = .pending b)) := by
  induction ids generalizing st with
  | nil =>
    rw [List.foldlM_nil] at hok
    injection hok with h
    subst h
    simp
  | cons x xs ih =>
    rw [List.foldlM_cons] at hok
    cases hx : process_output ctx st x with
    | error e =>
      rw [hx, except_error_bind] at hok
      cases hok
    | ok s1 =>
      rw [hx, except_ok_bind] at hok
      rw [ih s1 hok]
      have hpl := process_output_pl ctx st s1 x hx
      by_cases hfp : ∃ bx, output_fate ctx x = .pending bx
      · obtain ⟨bx, hfx⟩ := hfp
        rw [hfx] at hpl
        rw [hpl, pl_contains_key_cons]
        simp only [Bool.or_eq_true, beq_iff_eq]
        constructor
        · rintro ((rfl | hc) | ⟨hmem, hp⟩)
          · exact Or.inr ⟨List.mem_cons_self x xs, bx, hfx⟩
          · exact Or.inl hc
          · exact Or.inr ⟨List.mem_cons_of_mem x hmem, hp⟩
        · rintro (hc | ⟨hmem, hp⟩)
          · exact Or.inl (Or.inr hc)
          · rcases List.mem_cons.mp hmem with rfl | hmem2
            · exact Or.inl (Or.inl rfl)
            · exact Or.inr ⟨hmem2, hp⟩
      · have hpl2 : s1.balance.potentially_locked_outputs =
            st.balance.potentially_locked_outputs := by
          cases hfate : output_fate ctx x <;> rw [hfate] at hpl <;>
            first
              | exact hpl
              | exact absurd ⟨_, hfate⟩ hfp
        rw [hpl2]
        constructor
        · rintro (hc | ⟨hmem, hp⟩)
          · exact Or.inl hc
          · exact Or.inr ⟨List.mem_cons_of_mem x hmem, hp⟩
        · rintro (hc | ⟨hmem, hp⟩)
          · exact Or.inl hc
          · rcases List.mem_cons.mp hmem with rfl | hmem2
            · exact absurd hp hfp
            · exact Or.inr ⟨hmem2, hp⟩

/-- The voting-power side channel does not touch the potentially-locked map. -/
theorem voting_adjusted_pl (ctx : Ctx) (st : LoopState) (a : AddressWithUnspentOutputs) :
    (voting_adjusted ctx st a).balance.potentially_locked_outputs =
      st.balance.potentially_locked_outputs := by
  unfold voting_adjusted
  split
  · split
    · split <;> rfl
    · rfl
  · rfl

/-- Keys of the potentially-locked map after one address's loop. -/
theorem process_address_pl (ctx : Ctx) (st st' : LoopState) (a : AddressWithUnspentOutputs)
    (hok : process_address ctx st a = .ok st') (id : OutputId) :
    pl_contains_key st'.balance.potentially_locked_outputs id = true ↔
      (pl_contains_key st.balance.potentially_locked_outputs id = true ∨
        (id ∈ a.output_ids ∧ ∃ b, output_fate ctx id = .pending b)) := by
  unfold process_address at hok
  rw [foldlM_process_output_pl ctx a.output_ids _ st' hok id, voting_adjusted_pl]

/-- Keys of the potentially-locked map after the loop over many addresses. -/
theorem foldlM_process_address_pl (ctx : Ctx) (addrs : List AddressWithUnspentOutputs)
    (st st' : LoopState)
    (hok : addrs.foldlM (process_address ctx) st = .ok st') (id : OutputId) :
    pl_contains_key st'.balance.potentially_locked_outputs id = true ↔
      (pl_contains_key st.balance.potentially_locked_outputs id = true ∨
        (id ∈ processed_ids addrs ∧ ∃ b, output_fate ctx id = .pending b)) := by
  induction addrs generalizing st with
  | nil =>
    rw [List.foldlM_nil] at hok
    injection hok with h
    subst h
    simp [processed_ids]
  | cons a as ih =>
    rw [List.foldlM_cons] at hok
    cases ha : process_address ctx st a with
    | error e =>
      rw [ha, except_error_bind] at hok
      cases hok
    | ok s1 =>
      rw [ha, except_ok_bind] at hok
      rw [ih s1 hok, process_address_pl ctx st s1 a ha id]
      have hmm : id ∈ processed_ids (a :: as) ↔ id ∈ a.output_ids ∨ id ∈ processed_ids as := by
        simp [processed_ids]
      constructor
      · rintro ((hc | ⟨h1, hp⟩) | ⟨h2, hp⟩)
        · exact Or.inl hc
        · exact Or.inr ⟨hmm.mpr (Or.inl h1), hp⟩
        · exact Or.inr ⟨hmm.mpr (Or.inr h2), hp⟩
      · rintro (hc | ⟨hm, hp⟩)
        · exact Or.inl (Or.inl hc)
        · rcases hmm.mp hm with h1 | h2
          · exact Or.inl (Or.inr ⟨h1, hp⟩)
          · exact Or.inr ⟨h2, hp⟩

/-- Keys of the potentially-locked map after the whole main loop: exactly the
processed OutputIds whose fate is `pending`. -/
theorem run_balance_loop_pl (ctx : Ctx) (addrs : List AddressWithUnspentOutputs)
    (stF : LoopState) (hok : run_balance_loop ctx addrs = .ok stF) (id : OutputId) :
    pl_contains_key stF.balance.potentially_locked_outputs id = true ↔
      (id ∈ processed_ids addrs ∧ ∃ b, output_fate ctx id = .pending b) := by
  unfold run_balance_loop at hok
  rw [foldlM_process_address_pl ctx addrs initial_state stF hok id]
  simp [initial_state, Balance.empty, pl_contains_key]

/-- C7: no OutputId is both merged and potentially locked.  A step that merges
an output leaves the potentially-locked map untouched and only adds a fragment
to the running balance; after the main loop, an OutputId whose fate is
`merged` is never a key of `potentially_locked_outputs`, every key has a
`pending` fate, and the finalization fold leaves its accumulator unchanged on
any reserved OutputId already recorded in `potentially_locked_outputs`. -/
theorem conservation_spec (ctx : Ctx) (addrs : List AddressWithUnspentOutputs)
    (stF : LoopState) (hok : run_balance_loop ctx addrs = .ok stF) :
    (∀ st st' output_id, process_output ctx st output_id = .ok st' →
      output_fate ctx output_id = .merged →
      st'.balance.potentially_locked_outputs = st.balance.potentially_locked_outputs ∧
      ∃ fragment, st'.balance = Balance.add st.balance fragment) ∧
    (∀ output_id, output_fate ctx output_id = .merged →
      pl_contains_key stF.balance.potentially_locked_outputs output_id = false) ∧
    (∀ output_id, pl_contains_key stF.balance.potentially_locked_outputs output_id = true →
      ∃ b, output_fate ctx output_id = .pending b) ∧
    (∀ (pl : List (OutputId × Bool)) (acc : Nat × NativeTokensBuilder)
        (locked_output : OutputId),
      pl_contains_key pl locked_output = true →
      locked_step ctx pl acc locked_output = .ok acc) := by
  refine ⟨?_, ?_, ?_, ?_⟩
  · intro st st' output_id hstep hm
    constructor
    · rw [process_output_pl ctx st st' output_id hstep, hm]
    · rcases process_output_ok_inv ctx st st' output_id hstep with
        ⟨hskip, hst⟩ | ⟨data, ucs, tnt, hfound, hnet, hucs, htok, hst⟩
      · rw [hskip] at hm
        exact OutputFate.noConfusion hm
      · subst hst
        have hfate : output_fate ctx output_id = classify_fate ctx output_id data.output ucs := by
          unfold output_fate
          rw [hfound]
          simp [hnet, hucs]
        rw [hfate] at hm
        rcases classify_output_merged ctx st.balance output_id data.output
            (output_fragment data.output (ctx.rent_cost data.output)) ucs hm with hc | hc
        · exact ⟨_, hc⟩
        · exact ⟨_, hc⟩
  · intro output_id hm
    cases hcon : pl_contains_key stF.balance.potentially_locked_outputs output_id with
    | false => rfl
    | true =>
      rcases (run_balance_loop_pl ctx addrs stF hok output_id).mp hcon with ⟨_, b, hb⟩
      rw [hm] at hb
      exact OutputFate.noConfusion hb
  · intro output_id hc
    exact ((run_balance_loop_pl ctx addrs stF hok output_id).mp hc).2
  · intro pl acc locked_output h
    unfold locked_step
    simp [h]

/-- Witness for C7 on the fixture loop: output 1 is merged and is not a key of
the final potentially-locked map. -/
theorem conservation_spec_witness :
    pl_contains_key
      ({ balance :=
           { base_coin := { total := 1450, available := 0, voting_power := 0 }
             required_storage_deposit := { basic := 30, aliasDeposit := 0, foundry := 0, nft := 0 }
             native_tokens := [], aliases := [], foundries := [], nfts := []
             potentially_locked_outputs := [(5, false), (4, false)] }
         total_rent_amount := 10
         total_native_tokens := [(5, 5)] } : LoopState).balance.potentially_locked_outputs
      1 = false :=
  (conservation_spec exCtx exDetails.addresses_with_unspent_outputs
    { balance :=
        { base_coin := { total := 1450, available := 0, voting_power := 0 }
          required_storage_deposit := { basic := 30, aliasDeposit := 0, foundry := 0, nft := 0 }
          native_tokens := [], aliases := [], foundries := [], nfts := []
          potentially_locked_outputs := [(5, false), (4, false)] }
      total_rent_amount := 10
      total_native_tokens := [(5, 5)] } rfl).2.1 1 rfl

/-! ### The finalization pass -/

/-- The base-coin amount accumulated by one step of the reconciliation fold. -/
theorem locked_step_fst (ctx : Ctx) (pl : List (OutputId × Bool))
    (acc : Nat × NativeTokensBuilder) (x : OutputId) (acc1 : Nat × NativeTokensBuilder)
    (hok : locked_step ctx pl acc x = .ok acc1) :
    acc1.1 = acc.1 +
      (if pl_contains_key pl x then 0
       else
         match ctx.details.unspent_outputs.lookup x with
         | some od => if od.network_id == ctx.network_id then od.output.amount else 0
         | none => 0) := by
  unfold locked_step at hok
  split at hok
  next h =>
    injection hok with h1
    rw [← h1]
    simp [h]
  next h =>
    split at hok
    next hfind =>
      injection hok with h1
      rw [← h1]
      simp [h, hfind]
    next od hfind =>
      split at hok
      next hnet =>
        split at hok
        next nts hnt =>
          split at hok
          next b2 hadd =>
            injection hok with h1
            rw [← h1]
            simp [h, hfind, hnet]
          next e hadd =>
            cases hok
        next hnt =>
          injection hok with h1
          rw [← h1]
          simp [h, hfind, hnet]
      next hnet =>
        injection hok with h1
        rw [← h1]
        simp [h, hfind, hnet]

/-- The base-coin amount accumulated by the reconciliation fold over a list of
reserved OutputIds. -/
theorem foldlM_locked_step_amount (ctx : Ctx) (pl : List (OutputId × Bool))
    (l : List OutputId) (acc : Nat × NativeTokensBuilder) (la : Nat)
    (lb : NativeTokensBuilder)
    (hok : l.foldlM (locked_step ctx pl) acc = .ok (la, lb)) :
    la = acc.1 +
      ((l.filter (fun id => !pl_contains_key pl id)).filterMap
        (fun id =>
          match ctx.details.unspent_outputs.lookup id with
          | some od => if od.network_id == ctx.network_id then some od.output.amount else none
          | none => none)).sum := by
  induction l generalizing acc with
  | nil =>
    rw [List.foldlM_nil] at hok
    injection hok with h
    rw [h]
    simp
  | cons x xs ih =>
    rw [List.foldlM_cons] at hok
    cases hx : locked_step ctx pl acc x with
    | error e =>
      rw [hx, except_error_bind] at hok
      cases hok
    | ok acc1 =>
      rw [hx, except_ok_bind] at hok
      have hla := ih acc1 hok
      have hfst := locked_step_fst ctx pl acc x acc1 hx
      by_cases hplx : pl_contains_key pl x = true
      · rw [List.filter_cons_of_neg (by simp [hplx])]
        rw [hla, hfst]
        simp [hplx]
      · rw [List.filter_cons_of_pos (by simp [hplx])]
        rw [List.filterMap_cons]
        cases hfind : ctx.details.unspent_outputs.lookup x with
        | none =>
          rw [hla, hfst]
          simp [hplx, hfind]
        | some od =>
          by_cases hnet : (od.network_id == ctx.network_id) = true
          · rw [hla, hfst]
            simp only [hplx, hfind, hnet, if_true, if_false, Bool.false_eq_true]
            simp [List.sum_cons]
            omega
          · rw [hla, hfst]
            simp [hplx, hfind, hnet]

/-- C8: after finalization, the base-coin availability is the running total
minus the locked amount (the sum of amounts of same-network reserved outputs
not recorded as potentially locked, plus the rent reservation), additionally
minus the voting power when the participation feature is active; the
subtraction saturates, so availability never exceeds the unchanged total. -/
theorem finish_available_spec (ctx : Ctx) (balance : Balance) (total_rent_amount : Nat)
    (total_native_tokens : NativeTokensBuilder) (b : Balance)
    (hok : finish ctx balance total_rent_amount total_native_tokens = .ok b) :
    b.base_coin.available =
      balance.base_coin.total -
        (spec_locked_amount ctx balance.potentially_locked_outputs + total_rent_amount) -
        (if ctx.participation then balance.base_coin.voting_power else 0) ∧
    b.base_coin.available ≤ b.base_coin.total ∧
    b.base_coin.total = balance.base_coin.total := by
  unfold finish at hok
  cases hfold : ctx.details.locked_outputs.foldlM
      (locked_step ctx balance.potentially_locked_outputs) (0, ([] : NativeTokensBuilder)) with
  | error e =>
    rw [hfold] at hok
    cases hok
  | ok p =>
    obtain ⟨la, lb⟩ := p
    rw [hfold] at hok
    simp only [NativeTokensBuilder.finish_set] at hok
    cases hmap : native_token_entries ctx lb total_native_tokens with
    | error e =>
      rw [hmap] at hok
      cases hok
    | ok entries =>
      rw [hmap] at hok
      injection hok with hb
      subst hb
      have hla := foldlM_locked_step_amount ctx balance.potentially_locked_outputs
        ctx.details.locked_outputs (0, []) la lb hfold
      have hlaspec : la = spec_locked_amount ctx balance.potentially_locked_outputs := by
        rw [hla]
        simp [spec_locked_amount]
      refine ⟨?_, ?_, rfl⟩
      · show (if ctx.participation then _ else _) = _
        by_cases hp : ctx.participation = true
        · simp [hp, hlaspec]
        · simp [hp, hlaspec]
      · show (if ctx.participation then _ else _) ≤ balance.base_coin.total
        by_cases hp : ctx.participation = true
        · simp only [hp, if_true]
          exact le_trans (Nat.sub_le _ _) (Nat.sub_le _ _)
        · simp only [hp, Bool.false_eq_true, if_false]
          exact Nat.sub_le _ _

/-- Witness for C8 on the fixture finalization: total 1450, locked 300 plus
rent 10, availability 1140. -/
theorem finish_available_spec_witness :
    ({ base_coin := { total := 1450, available := 1140, voting_power := 0 }
       required_storage_deposit := { basic := 30, aliasDeposit := 0, foundry := 0, nft := 0 }
       native_tokens := [{ token_id := 5, total := 5, available := 3, metadata := none }]
       aliases := [], foundries := [], nfts := []
       potentially_locked_outputs := [(5, false), (4, false)] } : Balance).base_coin.available =
      ({ base_coin := { total := 1450, available := 0, voting_power := 0 }
         required_storage_deposit := { basic := 30, aliasDeposit := 0, foundry := 0, nft := 0 }
         native_tokens := [], aliases := [], foundries := [], nfts := []
         potentially_locked_outputs := [(5, false), (4, false)] } : Balance).base_coin.total -
        (spec_locked_amount exCtx [(5, false), (4, false)] + 10) -
        (if exCtx.participation then 0 else 0) :=
  (finish_available_spec exCtx
    { base_coin := { total := 1450, available := 0, voting_power := 0 }
      required_storage_deposit := { basic := 30, aliasDeposit := 0, foundry := 0, nft := 0 }
      native_tokens := [], aliases := [], foundries := [], nfts := []
      potentially_locked_outputs := [(5, false), (4, false)] } 10 [(5, 5)]
    { base_coin := { total := 1450, available := 1140, voting_power := 0 }
      required_storage_deposit := { basic := 30, aliasDeposit := 0, foundry := 0, nft := 0 }
      native_tokens := [{ token_id := 5, total := 5, available := 3, metadata := none }]
      aliases := [], foundries := [], nfts := []
      potentially_locked_outputs := [(5, false), (4, false)] } rfl).1

/-! ### Native-token aggregation invariants -/

/-- Lookup of the written key after a replacing map. -/
theorem lookup_map_replace (l : List (TokenId × Nat)) (t : TokenId) (v : Nat)
    (hany : l.any (fun p => p.1 == t) = true) :
    List.lookup t (l.map (fun p => if p.1 == t then (p.1, v) else p)) = some v := by
  induction l with
  | nil => simp at hany
  | cons p rest ih =>
    obtain ⟨k1, v1⟩ := p
    rw [List.map_cons]
    dsimp only
    by_cases hp : (k1 == t) = true
    · rw [if_pos hp]
      have hkt : k1 = t := by simpa [beq_iff_eq] using hp
      subst hkt
      simp [List.lookup]
    · rw [if_neg hp]
      have hrest : rest.any (fun p => p.1 == t) = true := by
        simp only [List.any_cons, hp, Bool.false_or] at hany
        exact hany
      have hne : (t == k1) = false := by
        cases h1 : (t == k1)
        · rfl
        · exfalso
          apply hp
          have ht : t = k1 := by simpa [beq_iff_eq] using h1
          simp [beq_iff_eq, ht.symm]
      simp only [List.lookup, hne]
      exact ih hrest

/-- Lookup of the appended key when it was absent. -/
theorem lookup_append_not_found (l : List (TokenId × Nat)) (t : TokenId) (v : Nat)
    (hany : l.any (fun p => p.1 == t) = false) :
    List.lookup t (l ++ [(t, v)]) = some v := by
  induction l with
  | nil => simp [List.lookup]
  | cons p rest ih =>
    obtain ⟨k1, v1⟩ := p
    rw [List.any_cons] at hany
    have hk : (k1 == t) = false := by
      cases h1 : (k1 == t) <;> simp [h1] at hany ⊢
    have hrest : rest.any (fun p => p.1 == t) = false := by
      cases h2 : rest.any (fun p => p.1 == t) <;> simp [hk, h2] at hany ⊢
    have hne : ¬(t == k1) = true := by
      simp only [beq_iff_eq] at hk ⊢
      intro h
      exact absurd h.symm (by simpa using hk)
    simp [List.cons_append, List.lookup, hne, ih hrest]

/-- Lookup of a different key is unchanged by a replacing map. -/
theorem lookup_map_replace_other (l : List (TokenId × Nat)) (t : TokenId) (v : Nat)
    (s : TokenId) (hst : s ≠ t) :
    List.lookup s (l.map (fun p => if p.1 == t then (p.1, v) else p)) = List.lookup s l := by
  induction l with
  | nil => rfl
  | cons p rest ih =>
    obtain ⟨k1, v1⟩ := p
    rw [List.map_cons]
    dsimp only
    by_cases hp : (k1 == t) = true
    · rw [if_pos hp]
      have hsk : (s == k1) = false := by
        cases h1 : (s == k1)
        · rfl
        · exfalso
          have h2 : s = k1 := by simpa [beq_iff_eq] using h1
          have h3 : k1 = t := by simpa [beq_iff_eq] using hp
          exact hst (h2.trans h3)
      simp only [List.lookup, hsk]
      exact ih
    · rw [if_neg hp]
      by_cases hsk : (s == k1) = true
      · simp [List.lookup, hsk]
      · simp only [Bool.not_eq_true] at hsk
        simp only [List.lookup, hsk]
        exact ih

/-- Lookup of a different key is unchanged by appending a singleton. -/
theorem lookup_append_single_other (l : List (TokenId × Nat)) (t : TokenId) (v : Nat)
    (s : TokenId) (hst : s ≠ t) :
    List.lookup s (l ++ [(t, v)]) = List.lookup s l := by
  have hst' : ¬(s == t) = true := by simpa [beq_iff_eq] using hst
  induction l with
  | nil => simp [List.lookup, hst']
  | cons p rest ih =>
    obtain ⟨k1, v1⟩ := p
    by_cases hsk : (s == k1) = true
    · simp [List.lookup, hsk]
    · simp [List.lookup, hsk, ih]

/-- Amount of the written key after `set`. -/
theorem builder_amount_set_self (b : NativeTokensBuilder) (t : TokenId) (v : Nat) :
    NativeTokensBuilder.amount (NativeTokensBuilder.set b t v) t = v := by
  unfold NativeTokensBuilder.set NativeTokensBuilder.amount
  cases hany : (b.any (fun p => p.1 == t)) with
  | true =>
    simp only [hany, if_true]
    rw [lookup_map_replace b t v hany]
  | false =>
    simp only [hany, Bool.false_eq_true, if_false]
    rw [lookup_append_not_found b t v hany]

/-- Amount of a different key after `set`. -/
theorem builder_amount_set_other (b : NativeTokensBuilder) (t : TokenId) (v : Nat)
    (s : TokenId) (hst : s ≠ t) :
    NativeTokensBuilder.amount (NativeTokensBuilder.set b t v) s =
      NativeTokensBuilder.amount b s := by
  unfold NativeTokensBuilder.set NativeTokensBuilder.amount
  cases hany : (b.any (fun p => p.1 == t)) with
  | true =>
    simp only [hany, if_true]
    rw [lookup_map_replace_other b t v s hst]
  | false =>
    simp only [hany, Bool.false_eq_true, if_false]
    rw [lookup_append_single_other b t v s hst]

/-- Amount after one checked native-token addition. -/
theorem add_native_token_amount (b b' : NativeTokensBuilder) (nt : TokenId × Nat)
    (h : NativeTokensBuilder.add_native_token b nt = .ok b') (t : TokenId) :
    NativeTokensBuilder.amount b' t =
      NativeTokensBuilder.amount b t + (if nt.1 == t then nt.2 else 0) := by
  simp only [NativeTokensBuilder.add_native_token] at h
  split at h
  next hlt =>
    injection h with h1
    subst h1
    by_cases hts : nt.1 = t
    · subst hts
      rw [builder_amount_set_self]
      simp
    · rw [builder_amount_set_other b nt.1 _ t (fun hc => hts hc.symm)]
      have : (nt.1 == t) = false := by simpa [beq_iff_eq] using hts
      simp [this]
  next => cases h

/-- Token-amount contribution of a cons cell. -/
theorem token_amount_in_cons (nt : TokenId × Nat) (rest : List (TokenId × Nat)) (t : TokenId) :
    token_amount_in (nt :: rest) t =
      (if nt.1 == t then nt.2 else 0) + token_amount_in rest t := by
  unfold token_amount_in
  rw [List.filter_cons]
  by_cases hp : (nt.1 == t) = true
  · simp [hp]
  · simp [hp]

/-- Amount after a list of checked native-token additions. -/
theorem add_native_tokens_amount (nts : List (TokenId × Nat)) (b b' : NativeTokensBuilder)
    (h : NativeTokensBuilder.add_native_tokens b nts = .ok b') (t : TokenId) :
    NativeTokensBuilder.amount b' t =
      NativeTokensBuilder.amount b t + token_amount_in nts t := by
  induction nts generalizing b with
  | nil =>
    unfold NativeTokensBuilder.add_native_tokens at h
    rw [List.foldlM_nil] at h
    injection h with h1
    subst h1
    simp [token_amount_in]
  | cons nt rest ih =>
    unfold NativeTokensBuilder.add_native_tokens at h
    rw [List.foldlM_cons] at h
    cases hx : NativeTokensBuilder.add_native_token b nt with
    | error e =>
      rw [hx, except_error_bind] at h
      cases h
    | ok b1 =>
      rw [hx, except_ok_bind] at h
      have h1 := ih b1 h
      have h2 := add_native_token_amount b b1 nt hx t
      rw [token_amount_in_cons, h1, h2]
      omega

/-- Amount after folding one output's native tokens into a builder. -/
theorem updated_native_tokens_amount (b b' : NativeTokensBuilder) (output : Output)
    (h : updated_native_tokens b output = .ok b') (t : TokenId) :
    NativeTokensBuilder.amount b' t = NativeTokensBuilder.amount b t +
      (match output.native_tokens with
       | some nts => token_amount_in nts t
       | none => 0) := by
  unfold updated_native_tokens at h
  cases hnt : output.native_tokens with
  | some nts =>
    rw [hnt] at h
    exact add_native_tokens_amount nts b b' h t
  | none =>
    rw [hnt] at h
    injection h with h1
    subst h1
    simp

/-- An output skipped by the fate function contributes no token amount. -/
theorem output_token_amount_skipped (ctx : Ctx) (output_id : OutputId) (t : TokenId)
    (hskip : output_fate ctx output_id = .skipped) :
    output_token_amount ctx output_id t = 0 := by
  unfold output_token_amount
  cases hfind : ctx.details.unspent_outputs.lookup output_id with
  | none => rfl
  | some data =>
    by_cases hnet : (data.network_id == ctx.network_id) = true
    · have hne : data.network_id = ctx.network_id := by simpa [beq_iff_eq] using hnet
      exact absurd hskip (output_fate_not_skipped ctx output_id data hfind hne)
    · simp [hnet]

/-- Claimed-side token amount added by one loop step. -/
theorem process_output_tnt (ctx : Ctx) (st st' : LoopState) (output_id : OutputId)
    (hok : process_output ctx st output_id = .ok st') (t : TokenId) :
    NativeTokensBuilder.amount st'.total_native_tokens t =
      NativeTokensBuilder.amount st.total_native_tokens t +
        output_token_amount ctx output_id t := by
  rcases process_output_ok_inv ctx st st' output_id hok with
    ⟨hskip, hst⟩ | ⟨data, ucs, tnt, hfound, hnet, hucs, htok, hst⟩
  · subst hst
    rw [output_token_amount_skipped ctx output_id t hskip]
    simp
  · subst hst
    show NativeTokensBuilder.amount tnt t = _
    rw [updated_native_tokens_amount st.total_native_tokens tnt data.output htok t]
    unfold output_token_amount
    rw [hfound]
    dsimp only
    have hb : (data.network_id == ctx.network_id) = true := by simp [hnet]
    rw [if_pos hb]

/-- The voting-power side channel does not touch the aggregator. -/
theorem voting_adjusted_tnt (ctx : Ctx) (st : LoopState) (a : AddressWithUnspentOutputs) :
    (voting_adjusted ctx st a).total_native_tokens = st.total_native_tokens := by
  unfold voting_adjusted
  split
  · split
    · split <;> rfl
    · rfl
  · rfl

/-- Claimed-side token amount after the inner loop. -/
theorem foldlM_process_output_tnt (ctx : Ctx) (ids : List OutputId) (st st' : LoopState)
    (hok : ids.foldlM (process_output ctx) st = .ok st') (t : TokenId) :
    NativeTokensBuilder.amount st'.total_native_tokens t =
      NativeTokensBuilder.amount st.total_native_tokens t +
        ((ids.map (fun id => output_token_amount ctx id t)).sum) := by
  induction ids generalizing st with
  | nil =>
    rw [List.foldlM_nil] at hok
    injection hok with h
    subst h
    simp
  | cons x xs ih =>
    rw [List.foldlM_cons] at hok
    cases hx : process_output ctx st x with
    | error e =>
      rw [hx, except_error_bind] at hok
      cases hok
    | ok s1 =>
      rw [hx, except_ok_bind] at hok
      rw [ih s1 hok, process_output_tnt ctx st s1 x hx t]
      simp [List.map_cons, List.sum_cons]
      omega

/-- Claimed-side token amount after one address. -/
theorem process_address_tnt (ctx : Ctx) (st st' : LoopState) (a : AddressWithUnspentOutputs)
    (hok : process_address ctx st a = .ok st') (t : TokenId) :
    NativeTokensBuilder.amount st'.total_native_tokens t =
      NativeTokensBuilder.amount st.total_native_tokens t +
        ((a.output_ids.map (fun id => output_token_amount ctx id t)).sum) := by
  unfold process_address at hok
  rw [foldlM_process_output_tnt ctx a.output_ids _ st' hok t, voting_adjusted_tnt]

/-- Claimed-side token amount after the loop over many addresses. -/
theorem foldlM_process_address_tnt (ctx : Ctx) (addrs : List AddressWithUnspentOutputs)
    (st st' : LoopState)
    (hok : addrs.foldlM (process_address ctx) st = .ok st') (t : TokenId) :
    NativeTokensBuilder.amount st'.total_native_tokens t =
      NativeTokensBuilder.amount st.total_native_tokens t +
        (((processed_ids addrs).map (fun id => output_token_amount ctx id t)).sum) := by
  induction addrs generalizing st with
  | nil =>
    rw [List.foldlM_nil] at hok
    injection hok with h
    subst h
    simp [processed_ids]
  | cons a as ih =>
    rw [List.foldlM_cons] at hok
    cases ha : process_address ctx st a with
    | error e =>
      rw [ha, except_error_bind] at hok
      cases hok
    | ok s1 =>
      rw [ha, except_ok_bind] at hok
      rw [ih s1 hok, process_address_tnt ctx st s1 a ha t]
      simp [processed_ids, List.map_append, List.sum_append]
      omega

/-- Claimed-side token amount after the whole main loop. -/
theorem run_balance_loop_tnt (ctx : Ctx) (addrs : List AddressWithUnspentOutputs)
    (stF : LoopState) (hok : run_balance_loop ctx addrs = .ok stF) (t : TokenId) :
    NativeTokensBuilder.amount stF.total_native_tokens t =
      (((processed_ids addrs).map (fun id => output_token_amount ctx id t)).sum) := by
  unfold run_balance_loop at hok
  rw [foldlM_process_address_tnt ctx addrs initial_state stF hok t]
  simp [initial_state, NativeTokensBuilder.amount, List.lookup]

/-- Locked-side token amount of one reconciliation step. -/
theorem locked_step_tnt (ctx : Ctx) (pl : List (OutputId × Bool))
    (acc : Nat × NativeTokensBuilder) (x : OutputId) (acc1 : Nat × NativeTokensBuilder)
    (hok : locked_step ctx pl acc x = .ok acc1) (t : TokenId) :
    NativeTokensBuilder.amount acc1.2 t = NativeTokensBuilder.amount acc.2 t +
      (if pl_contains_key pl x then 0 else output_token_amount ctx x t) := by
  unfold locked_step at hok
  split at hok
  next h =>
    injection hok with h1
    rw [← h1]
    simp [h]
  next h =>
    split at hok
    next hfind =>
      injection hok with h1
      rw [← h1]
      simp [h, output_token_amount, hfind]
    next od hfind =>
      split at hok
      next hnet =>
        split at hok
        next nts hnt =>
          split at hok
          next b2 hadd =>
            injection hok with h1
            rw [← h1]
            have hamt := add_native_tokens_amount nts acc.2 b2 hadd t
            simp [h, output_token_amount, hfind, hnet, hnt, hamt]
          next e hadd =>
            cases hok
        next hnt =>
          injection hok with h1
          rw [← h1]
          simp [h, output_token_amount, hfind, hnet, hnt]
      next hnet =>
        injection hok with h1
        rw [← h1]
        simp [h, output_token_amount, hfind, hnet]

/-- Locked-side token amount of the reconciliation fold. -/
theorem foldlM_locked_step_tnt (ctx : Ctx) (pl : List (OutputId × Bool))
    (l : List OutputId) (acc : Nat × NativeTokensBuilder) (la : Nat)
    (lb : NativeTokensBuilder)
    (hok : l.foldlM (locked_step ctx pl) acc = .ok (la, lb)) (t : TokenId) :
    NativeTokensBuilder.amount lb t = NativeTokensBuilder.amount acc.2 t +
      ((l.map (fun id =>
        if pl_contains_key pl id then 0 else output_token_amount ctx id t)).sum) := by
  induction l generalizing acc with
  | nil =>
    rw [List.foldlM_nil] at hok
    injection hok with h
    subst h
    simp
  | cons x xs ih =>
    rw [List.foldlM_cons] at hok
    cases hx : locked_step ctx pl acc x with
    | error e =>
      rw [hx, except_error_bind] at hok
      cases hok
    | ok acc1 =>
      rw [hx, except_ok_bind] at hok
      rw [ih acc1 hok, locked_step_tnt ctx pl acc x acc1 hx t]
      simp [List.map_cons, List.sum_cons]
      omega

/-- Sum over a duplicate-free list is at most the sum over any list containing
every element with a nonzero contribution. -/
theorem sum_map_le_of_nodup_subset (l m : List OutputId) (f : OutputId → Nat)
    (hnd : l.Nodup) (hsub : ∀ x ∈ l, f x ≠ 0 → x ∈ m) :
    (l.map f).sum ≤ (m.map f).sum := by
  have hstep : ∀ (l1 : List OutputId),
      ((l1.filter (fun x => f x != 0)).map f).sum = (l1.map f).sum := by
    intro l1
    induction l1 with
    | nil => rfl
    | cons x xs ih =>
      rw [List.filter_cons]
      by_cases hx : f x = 0
      · have hb : (f x != 0) = false := by simp [hx]
        simp [hb, ih, hx]
      · have hb : (f x != 0) = true := by simp [hx]
        simp [hb, ih]
  rw [← hstep l]
  have hnd' : (l.filter (fun x => f x != 0)).Nodup := hnd.filter _
  have hsub' : (l.filter (fun x => f x != 0)) ⊆ m := by
    intro x hx
    rw [List.mem_filter] at hx
    exact hsub x hx.1 (by simpa using hx.2)
  obtain ⟨l', hperm, hsubl⟩ := hnd'.subperm hsub'
  calc ((l.filter (fun x => f x != 0)).map f).sum
      = (l'.map f).sum := ((hperm.map f).sum_eq).symm
    _ ≤ (m.map f).sum := (hsubl.map f).sum_le_sum (fun x _ => Nat.zero_le x)

/-- `set` keeps the builder's keys duplicate-free. -/
theorem set_keys_nodup (b : NativeTokensBuilder) (t : TokenId) (v : Nat)
    (hnd : (b.map Prod.fst).Nodup) :
    ((NativeTokensBuilder.set b t v).map Prod.fst).Nodup := by
  unfold NativeTokensBuilder.set
  cases hany : (b.any (fun p => p.1 == t)) with
  | true =>
    simp only [hany, if_true]
    have hkeys : (b.map (fun p => if p.1 == t then (p.1, v) else p)).map Prod.fst =
        b.map Prod.fst := by
      rw [List.map_map]
      apply List.map_congr_left
      intro p _
      by_cases h : p.1 = t <;> simp [h]
    rw [hkeys]
    exact hnd
  | false =>
    simp only [hany, Bool.false_eq_true, if_false]
    rw [List.map_append]
    have htni : t ∉ b.map Prod.fst := by
      intro hmem
      rw [List.mem_map] at hmem
      obtain ⟨p, hp, hfst⟩ := hmem
      have hcon : (b.any (fun p => p.1 == t)) = true := by
        rw [List.any_eq_true]
        exact ⟨p, hp, by simp [beq_iff_eq, hfst]⟩
      rw [hany] at hcon
      cases hcon
    simp [List.nodup_append, hnd, htni]

/-- A checked addition keeps the builder's keys duplicate-free. -/
theorem add_native_token_keys_nodup (b b' : NativeTokensBuilder) (nt : TokenId × Nat)
    (h : NativeTokensBuilder.add_native_token b nt = .ok b')
    (hnd : (b.map Prod.fst).Nodup) : (b'.map Prod.fst).Nodup := by
  simp only [NativeTokensBuilder.add_native_token] at h
  split at h
  next =>
    injection h with h1
    subst h1
    exact set_keys_nodup b nt.1 _ hnd
  next => cases h

/-- A list of checked additions keeps the builder's keys duplicate-free. -/
theorem add_native_tokens_keys_nodup (nts : List (TokenId × Nat))
    (b b' : NativeTokensBuilder)
    (h : NativeTokensBuilder.add_native_tokens b nts = .ok b')
    (hnd : (b.map Prod.fst).Nodup) : (b'.map Prod.fst).Nodup := by
  induction nts generalizing b with
  | nil =>
    unfold NativeTokensBuilder.add_native_tokens at h
    rw [List.foldlM_nil] at h
    injection h with h1
    subst h1
    exact hnd
  | cons nt rest ih =>
    unfold NativeTokensBuilder.add_native_tokens at h
    rw [List.foldlM_cons] at h
    cases hx : NativeTokensBuilder.add_native_token b nt with
    | error e =>
      rw [hx, except_error_bind] at h
      cases h
    | ok b1 =>
      rw [hx, except_ok_bind] at h
      exact ih b1 h (add_native_token_keys_nodup b b1 nt hx hnd)

/-- Folding one output's tokens keeps the builder's keys duplicate-free. -/
theorem updated_native_tokens_keys_nodup (b b' : NativeTokensBuilder) (output : Output)
    (h : updated_native_tokens b output = .ok b')
    (hnd : (b.map Prod.fst).Nodup) : (b'.map Prod.fst).Nodup := by
  unfold updated_native_tokens at h
  cases hnt : output.native_tokens with
  | some nts =>
    rw [hnt] at h
    exact add_native_tokens_keys_nodup nts b b' h hnd
  | none =>
    rw [hnt] at h
    injection h with h1
    subst h1
    exact hnd

/-- One loop step keeps the claimed-side keys duplicate-free. -/
theorem process_output_keys_nodup (ctx : Ctx) (st st' : LoopState) (output_id : OutputId)
    (hok : process_output ctx st output_id = .ok st')
    (hnd : (st.total_native_tokens.map Prod.fst).Nodup) :
    (st'.total_native_tokens.map Prod.fst).Nodup := by
  rcases process_output_ok_inv ctx st st' output_id hok with
    ⟨hskip, hst⟩ | ⟨data, ucs, tnt, hfound, hnet, hucs, htok, hst⟩
  · subst hst
    exact hnd
  · subst hst
    exact updated_native_tokens_keys_nodup st.total_native_tokens tnt data.output htok hnd

/-- The inner loop keeps the claimed-side keys duplicate-free. -/
theorem foldlM_process_output_keys_nodup (ctx : Ctx) (ids : List OutputId)
    (st st' : LoopState)
    (hok : ids.foldlM (process_output ctx) st = .ok st')
    (hnd : (st.total_native_tokens.map Prod.fst).Nodup) :
    (st'.total_native_tokens.map Prod.fst).Nodup := by
  induction ids generalizing st with
  | nil =>
    rw [List.foldlM_nil] at hok
    injection hok with h
    subst h
    exact hnd
  | cons x xs ih =>
    rw [List.foldlM_cons] at hok
    cases hx : process_output ctx st x with
    | error e =>
      rw [hx, except_error_bind] at hok
      cases hok
    | ok s1 =>
      rw [hx, except_ok_bind] at hok
      exact ih s1 hok (process_output_keys_nodup ctx st s1 x hx hnd)

/-- The loop over addresses keeps the claimed-side keys duplicate-free. -/
theorem foldlM_process_address_keys_nodup (ctx : Ctx)
    (addrs : List AddressWithUnspentOutputs) (st st' : LoopState)
    (hok : addrs.foldlM (process_address ctx) st = .ok st')
    (hnd : (st.total_native_tokens.map Prod.fst).Nodup) :
    (st'.total_native_tokens.map Prod.fst).Nodup := by
  induction addrs generalizing st with
  | nil =>
    rw [List.foldlM_nil] at hok
    injection hok with h
    subst h
    exact hnd
  | cons a as ih =>
    rw [List.foldlM_cons] at hok
    cases ha : process_address ctx st a with
    | error e =>
      rw [ha, except_error_bind] at hok
      cases hok
    | ok s1 =>
      rw [ha, except_ok_bind] at hok
      refine ih s1 hok ?_
      unfold process_address at ha
      have := foldlM_process_output_keys_nodup ctx a.output_ids _ s1 ha
      rw [voting_adjusted_tnt] at this
      exact this hnd

/-- The whole main loop produces a claimed-side builder with duplicate-free
keys. -/
theorem run_balance_loop_keys_nodup (ctx : Ctx) (addrs : List AddressWithUnspentOutputs)
    (stF : LoopState) (hok : run_balance_loop ctx addrs = .ok stF) :
    (stF.total_native_tokens.map Prod.fst).Nodup := by
  unfold run_balance_loop at hok
  exact foldlM_process_address_keys_nodup ctx addrs initial_state stF hok (by simp [initial_state])

/-- A member of a builder with duplicate-free keys is its recorded amount. -/
theorem builder_amount_of_mem (b : NativeTokensBuilder) (t : TokenId) (a : Nat)
    (hnd : (b.map Prod.fst).Nodup) (hmem : (t, a) ∈ b) :
    NativeTokensBuilder.amount b t = a := by
  induction b with
  | nil => cases hmem
  | cons p rest ih =>
    obtain ⟨k1, v1⟩ := p
    rw [List.map_cons] at hnd
    rcases List.mem_cons.mp hmem with heq | hmem2
    · injection heq with h1 h2
      subst h1
      subst h2
      unfold NativeTokensBuilder.amount
      simp [List.lookup]
    · have hne : t ≠ k1 := by
        intro hcon
        subst hcon
        have hmemk : t ∈ rest.map Prod.fst := List.mem_map.mpr ⟨(t, a), hmem2, rfl⟩
        exact (List.nodup_cons.mp hnd).1 hmemk
      have hne' : (t == k1) = false := by simp [beq_iff_eq, hne]
      unfold NativeTokensBuilder.amount at ih ⊢
      simp only [List.lookup, hne']
      exact ih (List.nodup_cons.mp hnd).2 hmem2

/-- The reconciliation step only fails with a propagated block error. -/
theorem locked_step_error (ctx : Ctx) (pl : List (OutputId × Bool))
    (acc : Nat × NativeTokensBuilder) (x : OutputId) (e : WalletError)
    (h : locked_step ctx pl acc x = .error e) : ∃ be, e = .block be := by
  unfold locked_step at h
  split at h
  next => cases h
  next =>
    split at h
    next => cases h
    next od hfind =>
      split at h
      next =>
        split at h
        next nts hnt =>
          split at h
          next => cases h
          next e2 hadd =>
            injection h with h1
            exact ⟨e2, h1.symm⟩
        next => cases h
      next => cases h

/-- The reconciliation fold only fails with a propagated block error. -/
theorem foldlM_locked_step_error (ctx : Ctx) (pl : List (OutputId × Bool))
    (l : List OutputId) (acc : Nat × NativeTokensBuilder) (e : WalletError)
    (h : l.foldlM (locked_step ctx pl) acc = .error e) : ∃ be, e = .block be := by
  induction l generalizing acc with
  | nil =>
    rw [List.foldlM_nil] at h
    cases h
  | cons x xs ih =>
    rw [List.foldlM_cons] at h
    cases hx : locked_step ctx pl acc x with
    | error e1 =>
      rw [hx, except_error_bind] at h
      injection h with h1
      subst h1
      exact locked_step_error ctx pl acc x _ hx
    | ok acc1 =>
      rw [hx, except_ok_bind] at h
      exact ih acc1 h

/-- The per-token reconciliation succeeds when no token's locked amount
exceeds its claimed total. -/
theorem native_token_entries_ok (ctx : Ctx) (lb : NativeTokensBuilder)
    (l : List (TokenId × Nat))
    (h : ∀ nt ∈ l, NativeTokensBuilder.amount lb nt.1 ≤ nt.2) :
    ∃ entries, native_token_entries ctx lb l = .ok entries := by
  induction l with
  | nil => exact ⟨[], rfl⟩
  | cons nt rest ih =>
    obtain ⟨entries, hrest⟩ := ih (fun x hx => h x (List.mem_cons_of_mem nt hx))
    have hle := h nt (List.mem_cons_self nt rest)
    have hent : native_token_entry ctx lb nt = .ok
        { token_id := nt.1, total := nt.2,
          available := nt.2 - NativeTokensBuilder.amount lb nt.1,
          metadata := (ctx.details.native_token_foundries.lookup nt.1).join } := by
      unfold native_token_entry
      rw [if_pos hle]
    refine ⟨{ token_id := nt.1, total := nt.2,
              available := nt.2 - NativeTokensBuilder.amount lb nt.1,
              metadata := (ctx.details.native_token_foundries.lookup nt.1).join } :: entries, ?_⟩
    simp only [native_token_entries, hent, hrest]

/-- C10: for every native token, the locked-side aggregate computed in
finalization never exceeds the claimed-side total, because every same-network
reserved output contributing to the locked side also had its tokens added to
the claimed side during the main loop (assuming the reserved set is
duplicate-free and covered by the processed OutputIds); consequently the
unguarded per-token subtraction never underflows and `balance_inner` cannot
fail with the modelled subtraction panic. -/
theorem native_token_no_underflow_spec (ctx : Ctx) (addrs : List AddressWithUnspentOutputs)
    (stF : LoopState)
    (hok : run_balance_loop ctx addrs = .ok stF)
    (hnd : ctx.details.locked_outputs.Nodup)
    (hcov : ∀ id ∈ ctx.details.locked_outputs,
      id ∈ processed_ids addrs ∨ ctx.details.unspent_outputs.lookup id = none) :
    (∀ la lb,
      ctx.details.locked_outputs.foldlM
        (locked_step ctx stF.balance.potentially_locked_outputs)
        (0, ([] : NativeTokensBuilder)) = .ok (la, lb) →
      ∀ t, NativeTokensBuilder.amount lb t ≤
        NativeTokensBuilder.amount stF.total_native_tokens t) ∧
    balance_inner ctx addrs ≠ .error (.panic "attempt to subtract with overflow") := by
  have hle : ∀ la lb,
      ctx.details.locked_outputs.foldlM
        (locked_step ctx stF.balance.potentially_locked_outputs)
        (0, ([] : NativeTokensBuilder)) = .ok (la, lb) →
      ∀ t, NativeTokensBuilder.amount lb t ≤
        NativeTokensBuilder.amount stF.total_native_tokens t := by
    intro la lb hfold t
    have h1 := foldlM_locked_step_tnt ctx stF.balance.potentially_locked_outputs
      ctx.details.locked_outputs (0, []) la lb hfold t
    have h2 := run_balance_loop_tnt ctx addrs stF hok t
    rw [h2, h1]
    have h0 : NativeTokensBuilder.amount ((0, ([] : NativeTokensBuilder))).2 t = 0 := rfl
    rw [h0, Nat.zero_add]
    calc (ctx.details.locked_outputs.map (fun id =>
            if pl_contains_key stF.balance.potentially_locked_outputs id then 0
            else output_token_amount ctx id t)).sum
        ≤ (ctx.details.locked_outputs.map (fun id => output_token_amount ctx id t)).sum := by
          apply List.sum_le_sum
          intro i _
          by_cases hp : pl_contains_key stF.balance.potentially_locked_outputs i = true
          · simp [hp]
          · simp [hp]
      _ ≤ ((processed_ids addrs).map (fun id => output_token_amount ctx id t)).sum := by
          apply sum_map_le_of_nodup_subset _ _ _ hnd
          intro x hx hnz
          rcases hcov x hx with hmem | hnone
          · exact hmem
          · exfalso
            apply hnz
            unfold output_token_amount
            rw [hnone]
  refine ⟨hle, ?_⟩
  have hbi : balance_inner ctx addrs =
      finish ctx stF.balance stF.total_rent_amount stF.total_native_tokens := by
    unfold balance_inner
    rw [hok]
  rw [hbi]
  unfold finish
  cases hfold : ctx.details.locked_outputs.foldlM
      (locked_step ctx stF.balance.potentially_locked_outputs)
      (0, ([] : NativeTokensBuilder)) with
  | error e =>
    dsimp only
    obtain ⟨be, hbe⟩ := foldlM_locked_step_error ctx
      stF.balance.potentially_locked_outputs ctx.details.locked_outputs
      (0, ([] : NativeTokensBuilder)) e hfold
    subst hbe
    simp
  | ok p =>
    obtain ⟨la, lb⟩ := p
    dsimp only [NativeTokensBuilder.finish_set]
    have hmem : ∀ nt ∈ stF.total_native_tokens,
        NativeTokensBuilder.amount lb nt.1 ≤ nt.2 := by
      intro nt hmemnt
      have hndk := run_balance_loop_keys_nodup ctx addrs stF hok
      have hamt : NativeTokensBuilder.amount stF.total_native_tokens nt.1 = nt.2 :=
        builder_amount_of_mem stF.total_native_tokens nt.1 nt.2 hndk hmemnt
      rw [← hamt]
      exact hle la lb hfold nt.1
    obtain ⟨entries, hentries⟩ :=
      native_token_entries_ok ctx lb stF.total_native_tokens hmem
    rw [hentries]
    simp

/-- Witness for C10 on the fixture resolution (reserved output 6 carries
2 of token 5 while the claimed side carries 5). -/
theorem native_token_no_underflow_spec_witness :
    balance_inner exCtx exDetails.addresses_with_unspent_outputs ≠
      .error (.panic "attempt to subtract with overflow") :=
  (native_token_no_underflow_spec exCtx exDetails.addresses_with_unspent_outputs
    { balance :=
        { base_coin := { total := 1450, available := 0, voting_power := 0 }
          required_storage_deposit := { basic := 30, aliasDeposit := 0, foundry := 0, nft := 0 }
          native_tokens := [], aliases := [], foundries := [], nfts := []
          potentially_locked_outputs := [(5, false), (4, false)] }
      total_rent_amount := 10
      total_native_tokens := [(5, 5)] } rfl (by decide) (by decide)).2

end IotaSdk
